import Mathlib

/-!
Verification development for the neoTUI interactive terminal application
(TypeScript sources `src/index.ts` and `src/tasks.ts`).

Modelling conventions:
- JavaScript strings are modelled as Lean `String` values, i.e. sequences of
  Unicode scalar values.  JavaScript `.length` and `.slice` count UTF-16 code
  units; the two notions agree on all BMP text, and no property below depends
  on the width of the few astral emoji used in the fixed UI chrome.
- JavaScript numbers appearing in this program are used only as integers
  (column counts, indices, port numbers); they are modelled as `Int` where the
  source can go negative and `Nat` where it cannot.
- Environment-dependent startup constants (`hasColorSupport`,
  `hasUnicodeSupport`) are fixed at module load in the source; they are
  modelled by an explicit `Env` record threaded through the definitions.
- Asynchronous collaborator calls (`ping`, `dnsLookup`, `httpCheck`,
  `traceroute`, `portScan` from `tasks.ts`) are opaque to the controller; they
  are modelled as functions returning `Except String _`, where `.error m`
  models a rejected promise with message `m`.
- Mutable module-level state (the spinner index, `appState`, `inputState`,
  `lastArgs`) is modelled by explicit state passing.
-/

/-! ## Basic JavaScript string helpers -/

/-- The ASCII whitespace characters recognised by the JavaScript regexp
class `\s` (the program only ever splits command lines typed at a
terminal, so the exotic Unicode members of `\s` are irrelevant here). -/
def isJsSpace (c : Char) : Bool :=
  c = ' ' ∨ c = '\t' ∨ c = '\n' ∨ c = '\r' ∨ c = '\x0b' ∨ c = '\x0c'

/-- JavaScript `String.prototype.trim`: drop whitespace from both ends. -/
def jsTrim (s : String) : String :=
  ⟨(s.data.dropWhile isJsSpace).reverse.dropWhile isJsSpace |>.reverse⟩

/-- JavaScript `str.split(/\s+/)` on a list of characters: split on maximal
nonempty whitespace runs.  A leading (trailing) run produces a leading
(trailing) empty token, and the empty string yields one empty token,
exactly as in JavaScript.  (A whitespace character that is followed by
more whitespace contributes nothing: the whole run is one separator.) -/
def splitWS : List Char → List (List Char)
  | [] => [[]]
  | c :: rest =>
    if isJsSpace c then
      match rest with
      | c2 :: _ => if isJsSpace c2 then splitWS rest else [] :: splitWS rest
      | [] => [] :: splitWS rest
    else
      match splitWS rest with
      | [] => [[c]]
      | t :: ts => (c :: t) :: ts

/-- JavaScript `text.split("\n")` on a list of characters. -/
def splitLines : List Char → List (List Char)
  | [] => [[]]
  | c :: cs =>
    if c = '\n' then [] :: splitLines cs
    else
      match splitLines cs with
      | [] => [[c]]
      | l :: ls => (c :: l) :: ls

/-- Normalise one index argument of JavaScript `String.prototype.slice`:
negative indices count from the end (clamped at 0), positive ones are
clamped at the length. -/
def jsSliceIdx (len : Nat) (x : Int) : Nat :=
  if x < 0 then ((len : Int) + x).toNat else min x.toNat len

/-- JavaScript `s.slice(b, e)` on a list of characters: the code units from
the normalised `b` (inclusive) to the normalised `e` (exclusive), empty
when the normalised end does not exceed the normalised start. -/
def jsSlice (s : List Char) (b e : Int) : List Char :=
  (s.take (jsSliceIdx s.length e)).drop (jsSliceIdx s.length b)

/-- JavaScript `s.repeat(n)`.  (For negative `n` JavaScript throws a
`RangeError`; every call site in this program passes a clamped
nonnegative count, so the `Int.toNat` clamp is never observable.) -/
def jsRepeat (s : String) (n : Int) : String :=
  String.join (List.replicate n.toNat s)

/-- The exact mathematical integer denoted by a list of decimal digit
characters.  This is the value JavaScript `parseInt(str, 10)` computes
for an all-digit string **before** converting it to a float64; the
conversion (correct rounding, overflow to infinity) is modelled
separately by `roundNat` below. -/
def digitsToNat (cs : List Char) : Nat :=
  cs.foldl (fun a c => 10 * a + (c.toNat - 48)) 0

/-! ## Command Parser (`parse`, `src/index.ts` lines 75-97) -/

/-- The command variants produced by the parser (`type Cmd`). -/
inductive Cmd where
  | help : Cmd
  | clear : Cmd
  | ping (host : String) : Cmd
  | dns (host : String) : Cmd
  | http (target : String) : Cmd
  | trace (host : String) : Cmd
  | scan (host : String) (range : String) : Cmd
deriving DecidableEq, Repr

/-- ASCII lower-casing of one character, as `String.prototype.toLowerCase`
acts on the command verbs of this program (all candidate verbs are
ASCII). -/
def jsToLower (c : Char) : Char := c.toLower

/-- `function parse(line: string): Cmd` from `src/index.ts`:
`line.trim().split(/\s+/)`, then a case-insensitive switch on the first
token; missing positional arguments default to the empty string
(`rest[0] || ""`), and an empty or unrecognised verb falls back to
`help`.  (`debug` is an alias that also yields `help`.) -/
def parse (line : String) : Cmd :=
  match splitWS (jsTrim line).data with
  | [] => .help
  | cmd :: rest =>
    let c : String := ⟨cmd.map jsToLower⟩
    let arg0 : String := ⟨rest.getD 0 []⟩
    let arg1 : String := ⟨rest.getD 1 []⟩
    if c = "help" then .help
    else if c = "clear" then .clear
    else if c = "debug" then .help
    else if c = "ping" then .ping arg0
    else if c = "dns" then .dns arg0
    else if c = "http" then .http arg0
    else if c = "trace" then .trace arg0
    else if c = "scan" then .scan arg0 arg1
    else .help

/-! ## Range Parser (`parseRange`, `src/index.ts` lines 99-106) -/

/-- The anchored regular expression `^(\d+)-(\d+)$`: the string must
consist of a nonempty digit run, a single dash, and a nonempty digit run.
Since `\d` never matches a dash, the greedy first group must be the
maximal digit prefix, so matching with `List.span` is exact. -/
def matchDD (cs : List Char) : Option (List Char × List Char) :=
  match cs.span Char.isDigit with
  | (d1, '-' :: rest) =>
    if d1 ≠ [] ∧ rest ≠ [] ∧ rest.all Char.isDigit then some (d1, rest) else none
  | _ => none

/-- The enumeration loop
`for (let p = a; p <= b && out.length < 5000; p++) out.push(p);` under
the **exact-integer idealisation** of the JavaScript number (valid
whenever every value touched stays below `2^53`, where float64
arithmetic on integers is exact), reindexed structurally on the
remaining iteration count `b + 1 - p` (zero exactly when `p ≤ b` fails,
so the fuel pattern is the `p ≤ b` test and the inner `if` is the
`out.length < 5000` test).  The float64-faithful loop, needed for bounds
at or above `2^53`, is `pushLoopF` below. -/
def pushLoopGo : Nat → Nat → List Nat → List Nat
  | 0, _, out => out
  | fuel + 1, p, out =>
    if out.length < 5000 then pushLoopGo fuel (p + 1) (out ++ [p]) else out

/-- The loop of `parseRange`, entered at `p` (exact-integer
idealisation). -/
def pushLoop (b : Nat) (p : Nat) (out : List Nat) : List Nat :=
  pushLoopGo (b + 1 - p) p out

/-- `function parseRange(r: string): number[]` from `src/index.ts` under
the exact-integer idealisation of float64: on a regexp mismatch return
`[]`; otherwise sort the two parsed bounds ascending and enumerate the
closed interval, capped at 5000 entries.  This agrees with the source
exactly when both textual bounds are below `2^53`; in particular it
agrees on **emptiness** for every input (both it and the float-faithful
`parseRangeF` are empty precisely on a regexp mismatch, see
`parseRangeF_nil_iff`), which is the only way the controller model
(`runValD`, the scan dispatch) consumes it. -/
def parseRange (r : String) : List Nat :=
  match matchDD r.data with
  | none => []
  | some (d1, d2) =>
    let x := digitsToNat d1
    let y := digitsToNat d2
    let a := min x y
    let b := max x y
    pushLoop b a []

/-- A JavaScript number as it can arise inside `parseRange`: a finite
float64 holding a nonnegative integer value (represented by that exact
value; every number reachable here — a correctly rounded `parseInt`
result or an increment of one — is integer-valued), or positive
infinity (`parseInt` overflow).  NaN cannot arise: the regexp guarantees
nonempty digit strings. -/
inductive JsNum where
  | finite (n : Nat)
  | inf
deriving DecidableEq

/-- Floor of the base-2 logarithm, structurally (fuel is the maximal bit
length that can occur, far above the float64 overflow threshold). -/
def floorLog2 : Nat → Nat → Nat
  | 0, _ => 0
  | fuel + 1, n => if 2 ≤ n then floorLog2 fuel (n / 2) + 1 else 0

/-- Correct rounding of a nonnegative integer to the nearest float64
value (round-to-nearest, ties-to-even), as that value's exact integer:
integers up to `2^53` are representable; above, the unit in the last
place at magnitude `[2^e, 2^(e+1))` is `2^(e-52)` and the quotient by it
is the 53-bit significand, so ties go to the even quotient. -/
def roundFiniteNat (n : Nat) : Nat :=
  if n ≤ 2 ^ 53 then n
  else
    let e := floorLog2 1100 n
    let ulp := 2 ^ (e - 52)
    let q := n / ulp
    let r := n % ulp
    if r * 2 < ulp then q * ulp
    else if ulp < r * 2 then (q + 1) * ulp
    else if q % 2 = 0 then q * ulp else (q + 1) * ulp

/-- Conversion of an exact nonnegative integer to a float64 (`JsNum`):
values that round to at least `2^1024` (that is, at or above the
overflow tie `2^1024 − 2^970`, half an ulp above the largest finite
double) become infinity, the rest round to the nearest representable
integer.  Composed with `digitsToNat` this is JavaScript
`parseInt(str, 10)` on an all-digit string.  (For strings of more than
20 significant digits ECMA-262 permits an implementation-approximated
value; the model takes the correctly rounded one.) -/
def roundNat (n : Nat) : JsNum :=
  if 2 ^ 1024 - 2 ^ 970 ≤ n then .inf else .finite (roundFiniteNat n)

/-- `p++` on a float64: the exact successor of the held integer value,
re-rounded (a no-op at and above `2^53` when the successor is not
representable, which is what stalls the source loop there). -/
def jsSucc : JsNum → JsNum
  | .finite n => roundNat (n + 1)
  | .inf => .inf

/-- JavaScript `<=` on the numbers modelled here
(`Infinity <= Infinity` is true). -/
def jsLe : JsNum → JsNum → Bool
  | .finite a, .finite b => a ≤ b
  | .finite _, .inf => true
  | .inf, .finite _ => false
  | .inf, .inf => true

/-- JavaScript `<` on the numbers modelled here. -/
def jsLt : JsNum → JsNum → Bool
  | .finite a, .finite b => a < b
  | .finite _, .inf => true
  | .inf, _ => false

/-- `[x, y].sort((a, b) => a - b)` on two numbers: swap exactly when the
comparator is positive, i.e. when `x > y` (when both are infinite the
comparator is NaN, treated as 0 — no swap — which `jsLe` also yields). -/
def sortPairJs (x y : JsNum) : JsNum × JsNum :=
  if jsLe x y then (x, y) else (y, x)

/-- The float64-faithful enumeration loop of `parseRange`
(`for (let p = a; p <= b && out.length < 5000; p++) out.push(p);`):
comparison and increment are float64 operations.  The loop can stall
(`jsSucc` a no-op at `2^53` and above, or at infinity), so only the
5000-entry cap bounds it; since every iteration pushes exactly one
element, structural fuel of 5000 from an empty accumulator is exact. -/
def pushLoopF (b : JsNum) : Nat → JsNum → List JsNum → List JsNum
  | 0, _, out => out
  | fuel + 1, p, out =>
    if jsLe p b ∧ out.length < 5000 then pushLoopF b fuel (jsSucc p) (out ++ [p])
    else out

/-- `function parseRange(r: string): number[]` from `src/index.ts` with
float64 number semantics: `parseInt` rounds each textual bound to a
double (`roundNat ∘ digitsToNat`), the two doubles are sorted ascending,
and the interval is enumerated with float64 increment under the
5000-entry cap. -/
def parseRangeF (r : String) : List JsNum :=
  match matchDD r.data with
  | none => []
  | some (d1, d2) =>
    let x := roundNat (digitsToNat d1)
    let y := roundNat (digitsToNat d2)
    let s := sortPairJs x y
    pushLoopF s.2 5000 s.1 []

/-! ## Layout Engine (`getLayout`, `src/index.ts` lines 147-155) -/

/-- `const SIDEBAR_WIDTH = 35;` -/
def SIDEBAR_WIDTH : Int := 35

/-- Result of `getLayout`. -/
structure Layout where
  sideW : Int
  mainW : Int
  narrow : Bool
deriving DecidableEq, Repr

/-- `function getLayout(cols: number)` from `src/index.ts`: three
responsive bands on the terminal column count. -/
def getLayout (cols : Int) : Layout :=
  if cols < 80 then
    { sideW := min 25 (cols - 10), mainW := cols - 30, narrow := true }
  else if cols < 120 then
    { sideW := SIDEBAR_WIDTH, mainW := cols - SIDEBAR_WIDTH - 5, narrow := false }
  else
    { sideW := SIDEBAR_WIDTH + 5, mainW := cols - SIDEBAR_WIDTH - 10, narrow := false }

/-! ## Word wrap (`wrap`, `src/index.ts` lines 168-180) -/

/-- `const MAX_CONTENT_LINES = 2000;` -/
def MAX_CONTENT_LINES : Nat := 2000

/-- The inner chunking loop of `wrap` for one source line that is longer
than `width`:
`while (i < raw.length) { lines.push(raw.slice(i, i + width)); i += width;
if (lines.length > MAX_CONTENT_LINES) break; }`.
Note that the cap test runs only after a push and only breaks this inner
loop.  Every iteration pushes exactly one chunk, which bounds the
recursion by the cap even when `width ≤ 0` makes `i` stop advancing. -/
def wrapInner (raw : List Char) (width : Int) (i : Int) (acc : List (List Char)) :
    List (List Char) :=
  if i < (raw.length : Int) then
    if (acc ++ [jsSlice raw i (i + width)]).length > MAX_CONTENT_LINES then
      acc ++ [jsSlice raw i (i + width)]
    else wrapInner raw width (i + width) (acc ++ [jsSlice raw i (i + width)])
  else acc
termination_by MAX_CONTENT_LINES - acc.length
decreasing_by
  simp only [List.length_append, List.length_singleton] at *
  omega

/-- Processing of one source line by `wrap`: lines that fit are pushed
whole, longer ones are hard-broken by `wrapInner`. -/
def wrapSeg (width : Int) (lines : List (List Char)) (raw : List Char) : List (List Char) :=
  if (raw.length : Int) ≤ width then lines ++ [raw]
  else wrapInner raw width 0 lines

/-- `function wrap(text: string, width: number): string[]` from
`src/index.ts`. -/
def wrap (text : String) (width : Int) : List String :=
  ((splitLines text.data).foldl (wrapSeg width) []).map fun l => ⟨l⟩

/-! ## UI state (`PanelState`, `InputState`, `src/index.ts` lines 108-122) -/

/-- `type PanelState` from `src/index.ts`.  The `active` union of string
literals is modelled as a `String`. -/
structure PanelState where
  active : String
  mainText : String
  status : String
deriving DecidableEq, Repr

/-- The renderable part of `type InputState` from `src/index.ts`.  The
`submit` and `cancel` callbacks bound per modal instance do not influence
rendering and are modelled separately by the controller models below. -/
structure InputState where
  active : Bool
  prompt : String
  value : String
  hint : String
deriving DecidableEq, Repr

/-! ## Environment-dependent styling (`src/index.ts` lines 9-73) -/

/-- The two capability probes `hasColorSupport()` and
`hasUnicodeSupport()`, evaluated once at module load; their results are
fixed for the lifetime of the process. -/
structure Env where
  color : Bool
  unicode : Bool
deriving DecidableEq, Repr

/-- The ANSI palette record (`const colors`). -/
structure ColorScheme where
  primary : String
  secondary : String
  success : String
  warning : String
  error : String
  muted : String
  bright : String
  reset : String
  bold : String
  dim : String
  underline : String
deriving DecidableEq, Repr

/-- `const colors = hasColorSupport() ? ... : ...` from `src/index.ts`. -/
def colors (e : Env) : ColorScheme :=
  if e.color then
    { primary := "\x1b[36m", secondary := "\x1b[35m", success := "\x1b[32m"
      warning := "\x1b[33m", error := "\x1b[31m", muted := "\x1b[90m"
      bright := "\x1b[97m", reset := "\x1b[0m", bold := "\x1b[1m"
      dim := "\x1b[2m", underline := "\x1b[4m" }
  else
    { primary := "", secondary := "", success := "", warning := "", error := ""
      muted := "", bright := "", reset := "", bold := "", dim := "", underline := "" }

/-- The icon record (`const icons`). -/
structure Icons where
  network : String
  ping : String
  dns : String
  http : String
  scan : String
  trace : String
  success : String
  error : String
  loading : String
  arrow : String
  bullet : String
  home : String
  clear : String
  help : String
  active : String
  inactive : String
deriving DecidableEq, Repr

/-- `const icons = hasUnicodeSupport() ? ... : ...` from `src/index.ts`. -/
def icons (e : Env) : Icons :=
  if e.unicode then
    { network := "🌐", ping := "📡", dns := "🔍", http := "🌍"
      scan := "🔍", trace := "🛤️", success := "✅", error := "❌"
      loading := "⏳", arrow := "→", bullet := "•", home := "🏠"
      clear := "🧹", help := "❓", active := "▶", inactive := " " }
  else
    { network := "N", ping := "P", dns := "D", http := "H"
      scan := "S", trace := "T", success := "OK", error := "X"
      loading := "...", arrow := "->", bullet := "*", home := "H"
      clear := "C", help := "?", active := ">", inactive := " " }

/-- The nested `tee` record of `const CHARS`. -/
structure TeeChars where
  down : String
  up : String
  left : String
  right : String
deriving DecidableEq, Repr

/-- The box-drawing record (`const CHARS`). -/
structure BoxChars where
  topLeft : String
  topRight : String
  bottomLeft : String
  bottomRight : String
  horizontal : String
  vertical : String
  cross : String
  tee : TeeChars
deriving DecidableEq, Repr

/-- `const CHARS = hasUnicodeSupport() ? ... : ...` from `src/index.ts`. -/
def CHARS (e : Env) : BoxChars :=
  if e.unicode then
    { topLeft := "╭", topRight := "╮", bottomLeft := "╰", bottomRight := "╯"
      horizontal := "─", vertical := "│", cross := "┼"
      tee := { down := "┬", up := "┴", left := "┤", right := "├" } }
  else
    { topLeft := "+", topRight := "+", bottomLeft := "+", bottomRight := "+"
      horizontal := "-", vertical := "|", cross := "+"
      tee := { down := "+", up := "+", left := "+", right := "+" } }

/-- `const spinners` from `src/index.ts`. -/
def spinners (e : Env) : List String :=
  if e.unicode then ["⠋", "⠙", "⠹", "⠸", "⠼", "⠴", "⠦", "⠧", "⠇", "⠏"]
  else ["|", "/", "-", "\\"]

/-- `function getSpinner(): string` from `src/index.ts`.  The mutable
module-level `spinnerIndex` is threaded explicitly: `spinnerIndex++`
samples the old value and stores the incremented one. -/
def getSpinner (e : Env) (spinnerIndex : Nat) : String × Nat :=
  ((colors e).primary ++ (spinners e).getD (spinnerIndex % (spinners e).length) ""
    ++ (colors e).reset, spinnerIndex + 1)

/-! ## Menu and helper renderers (`src/index.ts` lines 124-253) -/

/-- One entry of `const MENU`. -/
structure MenuItem where
  key : String
  label : String
  hint : String
  icon : String
deriving DecidableEq, Repr

/-- `const MENU` from `src/index.ts` (icons depend on the environment). -/
def MENU (e : Env) : List MenuItem :=
  [ { key := "home", label := "Home", hint := "help", icon := (icons e).home }
  , { key := "ping", label := "Ping", hint := "ping <host>", icon := (icons e).ping }
  , { key := "dns", label := "DNS", hint := "dns <host>", icon := (icons e).dns }
  , { key := "http", label := "HTTP", hint := "http <url|host>", icon := (icons e).http }
  , { key := "trace", label := "Trace", hint := "trace <host>", icon := (icons e).trace }
  , { key := "scan", label := "Scan", hint := "scan <host> 1-1024", icon := (icons e).scan }
  , { key := "clear", label := "Clear", hint := "clear", icon := (icons e).clear }
  , { key := "help", label := "Help", hint := "help", icon := (icons e).help } ]

/-- `function colorizeStatus(status: string): string` from `src/index.ts`.
Only the `running` arm samples the spinner (and thereby advances the
module-level spinner index); every other arm leaves it untouched. -/
def colorizeStatus (e : Env) (status : String) (spinnerIndex : Nat) : String × Nat :=
  if status = "running" then
    let p := getSpinner e spinnerIndex
    ((colors e).warning ++ p.1 ++ " " ++ status ++ (colors e).reset, p.2)
  else if status = "done" then
    ((colors e).success ++ (icons e).success ++ " " ++ status ++ (colors e).reset, spinnerIndex)
  else if status = "error" then
    ((colors e).error ++ (icons e).error ++ " " ++ status ++ (colors e).reset, spinnerIndex)
  else if status = "input" then
    ((colors e).primary ++ (icons e).loading ++ " input" ++ (colors e).reset, spinnerIndex)
  else if status = "nav" then
    ((colors e).muted ++ (icons e).arrow ++ " navigation" ++ (colors e).reset, spinnerIndex)
  else ((colors e).muted ++ status ++ (colors e).reset, spinnerIndex)

/-- One menu row of `buildSidebar` (the body of `MENU.map((m, i) => ...)`). -/
def sidebarItem (e : Env) (width : Int) (active : String) (i : Nat) (m : MenuItem) : String :=
  let isActive := m.key = active
  let shortcut := "[" ++ toString (i + 1) ++ "]"
  let marker := if isActive then (colors e).primary ++ (icons e).active ++ (colors e).reset
                else (icons e).inactive
  let icon := if isActive then (colors e).primary ++ m.icon ++ (colors e).reset
              else (colors e).muted ++ m.icon ++ (colors e).reset
  let label := if isActive then (colors e).bright ++ (colors e).bold ++ m.label ++ (colors e).reset
               else (colors e).muted ++ m.label ++ (colors e).reset
  let line := marker ++ " " ++ icon ++ " " ++ label ++ " " ++ (colors e).dim ++ shortcut ++ (colors e).reset
  let plainLine := (if isActive then "▶" else " ") ++ " " ++ m.icon ++ " " ++ m.label ++ " " ++ shortcut
  let padding : Int := width - plainLine.length - 2
  (CHARS e).vertical ++ " " ++ line ++ jsRepeat " " (max 0 padding) ++ " " ++ (CHARS e).vertical

/-- One hint row of `buildSidebar` (the body of `MENU.map(m => ...)`). -/
def sidebarHint (e : Env) (width : Int) (m : MenuItem) : String :=
  let hint := (colors e).muted ++ (icons e).bullet ++ " " ++ m.hint ++ (colors e).reset
  let plainHint := "• " ++ m.hint
  let padding : Int := width - plainHint.length - 2
  (CHARS e).vertical ++ " " ++ hint ++ jsRepeat " " (max 0 padding) ++ " " ++ (CHARS e).vertical

/-- `function buildSidebar(width, active)` from `src/index.ts`.  (The
unused local `title` of the source is omitted.) -/
def buildSidebar (e : Env) (width : Int) (active : String) : List String :=
  let titlePlain := " COMMANDS "
  let top := (CHARS e).topLeft ++ titlePlain
    ++ jsRepeat (CHARS e).horizontal (max 0 (width - titlePlain.length - 1)) ++ (CHARS e).topRight
  let items := (MENU e).enum.map fun p => sidebarItem e width active p.1 p.2
  let sep := (CHARS e).tee.right ++ jsRepeat (CHARS e).horizontal (width - 2) ++ (CHARS e).tee.left
  let hintsTitle := (CHARS e).vertical ++ " " ++ (colors e).bold ++ (colors e).secondary
    ++ " HINTS " ++ (colors e).reset ++ jsRepeat " " (width - 8) ++ " " ++ (CHARS e).vertical
  let hintLines := (MENU e).map (sidebarHint e width)
  let bottom := (CHARS e).bottomLeft ++ jsRepeat (CHARS e).horizontal (width - 2) ++ (CHARS e).bottomRight
  [top] ++ items ++ [sep, hintsTitle] ++ hintLines ++ [bottom]

/-- `function renderInput(input, width)` from `src/index.ts`. -/
def renderInput (e : Env) (input : InputState) (width : Int) : List String :=
  if ¬ input.active then [] else
  let cursor := (colors e).primary ++ "│" ++ (colors e).reset
  let value := input.value ++ cursor
  let border := jsRepeat (CHARS e).horizontal (max 0 (width - 4))
  [ (CHARS e).topLeft ++ (CHARS e).horizontal ++ " " ++ (colors e).bold ++ (colors e).primary
      ++ input.prompt ++ (colors e).reset ++ " " ++ border ++ (CHARS e).topRight
  , (CHARS e).vertical ++ " " ++ (colors e).bright ++ value ++ (colors e).reset
      ++ jsRepeat " " (max 0 (width - value.length - 3)) ++ " " ++ (CHARS e).vertical
  , (CHARS e).bottomLeft ++ (CHARS e).horizontal ++ " " ++ (colors e).muted ++ input.hint
      ++ (colors e).reset ++ " " ++ jsRepeat " " (max 0 (width - input.hint.length - 4))
      ++ (CHARS e).bottomRight
  , "" ]

/-- `function renderStatusBar(state, input, cols)` from `src/index.ts`.
The two `new Date().toLocaleTimeString()` calls are modelled by the single
`time` parameter (the status bar clock), and the module-level spinner
index is threaded through `colorizeStatus`. -/
def renderStatusBar (e : Env) (state : PanelState) (input : InputState) (cols : Int)
    (time : String) (spinnerIndex : Nat) : String × Nat :=
  let time2 := (colors e).muted ++ time ++ (colors e).reset
  let p := colorizeStatus e (if input.active then "input" else state.status) spinnerIndex
  let mode := if input.active then (colors e).primary ++ (colors e).bold ++ "INPUT MODE" ++ (colors e).reset
              else (colors e).muted ++ "NAV MODE" ++ (colors e).reset
  let left := " " ++ (colors e).primary ++ (icons e).network ++ " " ++ (colors e).bold ++ "neoTUI" ++ (colors e).reset
  let center := mode ++ " " ++ (colors e).muted ++ "•" ++ (colors e).reset ++ " " ++ p.1
  let right := time2 ++ " "
  let leftPlain := " 🌐 neoTUI"
  let centerPlain := if input.active then
      "INPUT MODE • " ++ (if input.active then "input" else state.status)
    else "NAV MODE • " ++ state.status
  let rightPlain := time ++ " "
  let centerStart : Int := Int.fdiv (cols - centerPlain.length) 2
  let rightStart : Int := cols - rightPlain.length
  let line := left ++ jsRepeat " " (max 0 (centerStart - leftPlain.length)) ++ center
    ++ jsRepeat " " (max 0 (rightStart - ((leftPlain.length : Int) + centerPlain.length))) ++ right
  ((colors e).dim ++ String.mk (jsSlice line.data 0 cols) ++ (colors e).reset, p.2)

/-- Recogniser for the tail of an ANSI escape in the regexp
`/\x1b\[[0-9;]*m/`: after `ESC [`, greedily consume `[0-9;]*` and a final
`m`, returning the remainder (together with a length certificate used for
the termination of `stripAnsi`) on a match.  Since `m` is not in the
class `[0-9;]`, testing it first is equivalent to the greedy regexp. -/
def ansiTail : (cs : List Char) → Option { rem : List Char // rem.length < cs.length }
  | [] => none
  | c :: cs =>
    if c = 'm' then some ⟨cs, by simp⟩
    else if c.isDigit ∨ c = ';' then
      match ansiTail cs with
      | some ⟨rem, h⟩ => some ⟨rem, by simp only [List.length_cons]; omega⟩
      | none => none
    else none

/-- Scanner of `line.replace(/\x1b\[[0-9;]*m/g, '')`: delete every ANSI
colour escape, scanning left to right; a failed match attempt at an `ESC`
keeps that character and resumes right after it.  The fuel argument is
structural bookkeeping only: each step consumes at least one character,
so with fuel at least the list length (as supplied by `stripAnsi`) the
zero-fuel case is unreachable. -/
def stripAnsiGo : Nat → List Char → List Char
  | 0, _ => []
  | fuel + 1, cs =>
    match cs with
    | [] => []
    | '\x1b' :: '[' :: rest2 =>
      match ansiTail rest2 with
      | some ⟨rem, _⟩ => stripAnsiGo fuel rem
      | none => '\x1b' :: stripAnsiGo fuel ('[' :: rest2)
    | c :: rest => c :: stripAnsiGo fuel rest

/-- `line.replace(/\x1b\[[0-9;]*m/g, '')`. -/
def stripAnsi (cs : List Char) : List Char :=
  stripAnsiGo cs.length cs

/-! ## Frame Composer (`renderUI`, `src/index.ts` lines 360-405) -/

/-- One row of the two-column body of the frame (the body of the
`for (let i = 0; i < contentH; i++)` loop in `renderUI`). -/
def renderBodyRow (e : Env) (layout : Layout) (sidebar mainBody : List String) (i : Nat) : String :=
  let l := sidebar.getD i ((CHARS e).vertical ++ jsRepeat " " (layout.sideW - 2) ++ (CHARS e).vertical)
  let rContent := mainBody.getD i ""
  let rPlain : String := ⟨stripAnsi (mainBody.getD i "").data⟩
  let rPadding := jsRepeat " " (max 0 (layout.mainW - rPlain.length - 2))
  let r := (CHARS e).vertical ++ " " ++ rContent ++ rPadding ++ " " ++ (CHARS e).vertical
  l ++ r

/-- All rows of the frame except the status bar: the bordered header, the
two-column body, and the bordered footer, exactly as assembled by
`renderUI` (`src/index.ts` lines 360-401).  None of this depends on the
spinner index or the clock. -/
def renderFrameRows (e : Env) (state : PanelState) (input : InputState)
    (cols0 rows0 : Nat) : List String :=
  let cols : Int := (max 60 cols0 : Nat)
  let rows : Nat := max 20 rows0
  let layout := getLayout cols
  let contentH : Nat := rows - 3
  let sidebar := buildSidebar e layout.sideW state.active
  let header := (CHARS e).topLeft ++ jsRepeat (CHARS e).horizontal layout.sideW
    ++ (CHARS e).tee.down ++ jsRepeat (CHARS e).horizontal layout.mainW ++ (CHARS e).topRight
  let footer := (CHARS e).bottomLeft ++ jsRepeat (CHARS e).horizontal layout.sideW
    ++ (CHARS e).tee.up ++ jsRepeat (CHARS e).horizontal layout.mainW ++ (CHARS e).bottomRight
  let mainTitle := (colors e).bold ++ (colors e).primary ++ " OUTPUT " ++ (colors e).reset
  let right0 := if input.active then renderInput e input layout.mainW else []
  let formattedContent := if input.active then state.mainText
    else if state.active = "dns" ∨ state.active = "http" then state.mainText
    else state.mainText
  let right := right0 ++ ([mainTitle, ""] ++ wrap formattedContent (layout.mainW - 4))
  let mainBody := right.take contentH
  let body := (List.range contentH).map (renderBodyRow e layout sidebar mainBody)
  [header] ++ body ++ [footer]

/-- `function renderUI(state, input)` from `src/index.ts`.  The terminal
dimensions (`process.stdout.columns`/`rows`, already defaulted to 80/24
when undefined) enter as `cols0`/`rows0`, the status-bar clock as `time`,
and the module-level spinner index is threaded through explicitly; the
returned pair is the composed frame (`[header, ...body, footer,
statusBar].join("\n")`) and the updated spinner index.  The local
`sidebarHeight` of the source is unused there and omitted. -/
def renderUI (e : Env) (state : PanelState) (input : InputState) (cols0 rows0 : Nat)
    (time : String) (spinnerIndex : Nat) : String × Nat :=
  let cols : Int := (max 60 cols0 : Nat)
  let p := renderStatusBar e state input cols time spinnerIndex
  (String.intercalate "\n" (renderFrameRows e state input cols0 rows0 ++ [p.1]), p.2)

/-! ## Prompt Sequencer (`promptSequence`, `src/index.ts` lines 545-570,
together with `startInput` lines 509-525 and `endInput` lines 527-542).

The sequencer is modelled as a state machine over `SeqState`.  The
completion handler `done` is abstracted as a recorder: `doneCount` counts
its invocations and `doneWith` stores the answer list it receives, which
is exactly what the `done` argument of `promptSequence` observes. -/

/-- `PromptStep`: one element of the step list passed to `promptSequence`
(`{ prompt: string; initial?: string; validate?: (v) => string | null }`). -/
structure Step where
  prompt : String
  initial : Option String := none
  validate : Option (String → Option String) := none

/-- The observable state of one `promptSequence` instance: the modal
(`inputState.active/prompt/value`), the panel fields touched by `setMain`
(`mainText`, `status`, `active`), an append-only log of the `setMain`
calls issued by the sequencer (text and status arguments), the answer
array, and the recorder for the completion handler. -/
structure SeqState where
  idx : Nat
  answers : List (Option String)
  modalOpen : Bool
  prompt : String
  value : String
  mainText : String
  status : String
  active : String
  setMainLog : List (String × String)
  doneCount : Nat
  doneWith : Option (List String)
deriving DecidableEq, Repr

/-- The `setMain` operation as invoked by the sequencer (text, active,
status all supplied; empty strings are falsy and leave the field
unchanged, as in `if (active) ...` / `if (status) ...`).  Each call is
also recorded in the log. -/
def setMainS (s : SeqState) (text active2 status2 : String) : SeqState :=
  { s with
    mainText := text
    active := if active2 = "" then s.active else active2
    status := if status2 = "" then s.status else status2
    setMainLog := s.setMainLog ++ [(text, status2)] }

/-- `runStep(idx)` followed by `startInput(step.prompt, step.initial ?? "",
...)`: open the modal on step `i`, reset the edit buffer to the step's
initial value, and set the panel status to `input`.  (An out-of-range
index would dereference `undefined` in the source and is unreachable:
`promptSequence` is only invoked on nonempty step lists and indices stay
in range.) -/
def openStep (steps : List Step) (i : Nat) (s : SeqState) : SeqState :=
  match steps[i]? with
  | some st =>
    { s with idx := i, modalOpen := true, prompt := st.prompt,
             value := st.initial.getD "", status := "input" }
  | none => s

/-- The field resets performed by one completed `endInput` call:
`inputState.active = false; inputState.prompt = ""; inputState.value = "";
appState.status = "ready";`. -/
def closeModal (s : SeqState) : SeqState :=
  { s with modalOpen := false, prompt := "", value := "", status := "ready" }

/-- `endInput(false)`.  The cancel callback bound by `promptSequence` is
`async () => await endInput(false)`, and `endInput(false)` itself invokes
that callback before resetting the fields, so cancellation recurses until
the JavaScript stack limit aborts the innermost call (modelled by fuel 0
returning the state unchanged); every outer frame then completes its
resets.  For any positive depth the observable result is the same: the
modal is closed and the completion handler is never invoked. -/
def endInputFalse : Nat → SeqState → SeqState
  | 0, s => s
  | fuel + 1, s => closeModal (endInputFalse fuel s)

/-- Explicit cancellation (escape key) while the modal is open: the
keypress router invokes `endInput(false)`; outside a modal the escape key
does nothing to the sequencer. -/
def cancelSeq (fuel : Nat) (s : SeqState) : SeqState :=
  if s.modalOpen then endInputFalse fuel s else s

/-- `step.validate ? step.validate(val) : null`. -/
def runValidate (st : Step) (v : String) : Option String :=
  match st.validate with
  | some f => f v
  | none => none

/-- The submit handler bound by `promptSequence` for step `idx` (invoked
by the keypress router as `await inputState.submit(val)` while the modal
is open; line events are ignored while a modal is open, and submits
outside a modal cannot reach the sequencer). -/
def submitSeq (steps : List Step) (s : SeqState) (v : String) : SeqState :=
  if ¬ s.modalOpen then s else
  match steps[s.idx]? with
  | none => s
  | some st =>
    match runValidate st v with
    | some err =>
      -- setMain(`⛔ ${err}`, appState.active, "input-error"); runStep(idx)
      openStep steps s.idx (setMainS s ("⛔ " ++ err) s.active "input-error")
    | none =>
      -- answers[idx] = val
      let s1 := { s with answers := s.answers.set s.idx (some v) }
      if s.idx + 1 < steps.length then openStep steps (s.idx + 1) s1
      else
        -- await done(answers); await endInput(true)
        closeModal { s1 with
          doneCount := s1.doneCount + 1
          doneWith := some (s1.answers.map fun o => o.getD "") }

/-- `promptSequence(steps, done)` itself: initialise the answer array and
open step 0.  `mt`/`st0`/`ac` are the panel fields at invocation time. -/
def startSeq (steps : List Step) (mt st0 ac : String) : SeqState :=
  openStep steps 0
    { idx := 0, answers := List.replicate steps.length none, modalOpen := false
      prompt := "", value := "", mainText := mt, status := st0, active := ac
      setMainLog := [], doneCount := 0, doneWith := none }

/-- Events a live sequencer can receive from the input router. -/
inductive SeqEv where
  | submit (v : String)
  | cancel (fuel : Nat)

/-- A run of the sequencer over a list of router events. -/
def runSeq (steps : List Step) (s : SeqState) (evs : List SeqEv) : SeqState :=
  evs.foldl
    (fun t ev =>
      match ev with
      | .submit v => submitSeq steps t v
      | .cancel fuel => cancelSeq fuel t) s

/-- The inductive invariant of a live sequencer: the completion handler
has fired at most once and never while the modal is still open, the
answer array always has one slot per step, and any recorded completion
received one answer per step. -/
def SeqInv (steps : List Step) (s : SeqState) : Prop :=
  s.doneCount ≤ 1 ∧ (s.modalOpen = true → s.doneCount = 0) ∧
  s.answers.length = steps.length ∧
  ∀ l, s.doneWith = some l → l.length = steps.length

/-! ## Collaborator contracts (`src/tasks.ts`) -/

/-- One element of the `dns.lookup(name, { all: true })` result. -/
structure Addr where
  address : String
  family : Nat
deriving DecidableEq, Repr

/-- `dns.lookup` either yields a list of addresses or, via the attached
`.catch`, an object carrying the failure message. -/
inductive LookupRes where
  | addrs (l : List Addr)
  | err (msg : String)
deriving DecidableEq, Repr

/-- One MX record from `dns.resolveMx`. -/
structure MxRec where
  exchange : String
  priority : Nat
deriving DecidableEq, Repr

/-- The record returned by `dnsLookup` in `src/tasks.ts`. -/
structure DnsResult where
  lookup : LookupRes
  A : List String
  AAAA : List String
  MX : List MxRec
deriving DecidableEq, Repr

/-- The record returned by `httpCheck` in `src/tasks.ts`; the success and
failure shapes are merged with optional fields (`ok` is `undefined`,
hence falsy, in the failure shape). -/
structure HttpResult where
  url : String
  status : Option String
  ok : Bool
  timeMs : Option Nat
  headers : Option (List (String × String))
  error : Option String
deriving DecidableEq, Repr

/-- One element of the `portScan` result list (already filtered to open
ports and sorted ascending by `src/tasks.ts`). -/
structure ScanHit where
  port : Nat
  «open» : Bool
deriving DecidableEq, Repr

/-- The five collaborator operations, opaque to the controller.  A result
`.error m` models a rejected promise (or thrown exception) with message
`m`; `.ok` models normal completion. -/
structure Collab where
  ping : String → Except String String
  dnsLookup : String → Except String DnsResult
  httpCheck : String → Except String HttpResult
  traceroute : String → Except String String
  portScan : String → List Nat → Except String (List ScanHit)

/-! ## Result formatters (`src/index.ts` lines 268-358).  The
`typeof ... === 'string'` guards at their heads are unreachable for the
argument types actually produced by `src/tasks.ts` and are not modelled. -/

/-- Truthiness of an optional JavaScript string (`undefined` and `""` are
falsy). -/
def jsTruthyStr (o : Option String) : Bool :=
  match o with
  | some s => s ≠ ""
  | none => false

/-- `function formatDnsResult(result)` from `src/index.ts`. -/
def formatDnsResult (e : Env) (r : DnsResult) : String :=
  let s1 : List String :=
    match r.lookup with
    | .addrs l =>
      ((colors e).bold ++ (colors e).primary ++ "Lookup Results:" ++ (colors e).reset) ::
        l.map fun entry =>
          "  " ++ (colors e).success ++ (icons e).arrow ++ (colors e).reset ++ " "
            ++ entry.address ++ " " ++ (colors e).muted ++ "("
            ++ (if entry.family = 4 then "IPv4" else "IPv6") ++ ")" ++ (colors e).reset
    | .err _ => []
  let s2 : List String :=
    if r.A.length ≠ 0 then
      ((colors e).bold ++ (colors e).secondary ++ "A Records (IPv4):" ++ (colors e).reset) ::
        r.A.map (fun ip => "  " ++ (colors e).success ++ (icons e).bullet ++ (colors e).reset ++ " " ++ ip)
    else []
  let s3 : List String :=
    if r.AAAA.length ≠ 0 then
      ((colors e).bold ++ (colors e).secondary ++ "AAAA Records (IPv6):" ++ (colors e).reset) ::
        r.AAAA.map (fun ip => "  " ++ (colors e).success ++ (icons e).bullet ++ (colors e).reset ++ " " ++ ip)
    else []
  let s4 : List String :=
    if r.MX.length ≠ 0 then
      ((colors e).bold ++ (colors e).secondary ++ "MX Records:" ++ (colors e).reset) ::
        r.MX.map (fun mx =>
          "  " ++ (colors e).success ++ (icons e).bullet ++ (colors e).reset ++ " "
            ++ mx.exchange ++ " " ++ (colors e).muted ++ "(priority: " ++ toString mx.priority
            ++ ")" ++ (colors e).reset)
    else []
  let sections := s1 ++ s2 ++ s3 ++ s4
  if sections.length ≠ 0 then String.intercalate "\n" sections
  else (colors e).muted ++ "No DNS records found" ++ (colors e).reset

/-- `function formatHttpResult(result)` from `src/index.ts`. -/
def formatHttpResult (e : Env) (r : HttpResult) : String :=
  let base : List String :=
    [ (colors e).bold ++ (colors e).primary ++ "HTTP Response:" ++ (colors e).reset
    , (colors e).success ++ (icons e).bullet ++ (colors e).reset ++ " URL: "
        ++ (colors e).bright ++ r.url ++ (colors e).reset ]
  let sStatus : List String :=
    if jsTruthyStr r.status then
      let statusColor := if r.ok then (colors e).success else (colors e).error
      [ (colors e).success ++ (icons e).bullet ++ (colors e).reset ++ " Status: "
          ++ statusColor ++ r.status.getD "" ++ (colors e).reset ]
    else []
  let sTime : List String :=
    match r.timeMs with
    | some t =>
      let timeColor := if t < 200 then (colors e).success
        else if t < 1000 then (colors e).warning else (colors e).error
      [ (colors e).success ++ (icons e).bullet ++ (colors e).reset ++ " Response Time: "
          ++ timeColor ++ toString t ++ "ms" ++ (colors e).reset ]
    | none => []
  let sHeaders : List String :=
    match r.headers with
    | some hs =>
      if hs.length > 0 then
        ((colors e).bold ++ (colors e).secondary ++ "Headers:" ++ (colors e).reset) ::
          (hs.take 10).map (fun kv =>
            "  " ++ (colors e).muted ++ kv.1 ++ ":" ++ (colors e).reset ++ " " ++ kv.2)
      else []
    | none => []
  let sErr : List String :=
    match r.error with
    | some m =>
      [ (colors e).error ++ (icons e).error ++ " Error: " ++ m ++ (colors e).reset ]
    | none => []
  String.intercalate "\n" (base ++ sStatus ++ sTime ++ sHeaders ++ sErr)

/-- `function formatScanResult(data, host?)` from `src/index.ts`.  When
`host` is falsy (empty) the source falls through to `String(data)`, which
for an array of objects is the comma-join of `[object Object]`. -/
def formatScanResult (e : Env) (data : List ScanHit) (host : String) : String :=
  if host ≠ "" then
    let hd := (colors e).bold ++ (colors e).primary ++ "Port Scan Results for "
      ++ (colors e).bright ++ host ++ (colors e).reset ++ (colors e).primary ++ ":" ++ (colors e).reset
    let body : List String :=
      if data.length = 0 then
        [ (colors e).muted ++ (icons e).bullet ++ " No open ports found" ++ (colors e).reset ]
      else
        ((colors e).success ++ (icons e).bullet ++ " Found " ++ (colors e).bold
            ++ toString data.length ++ (colors e).reset ++ (colors e).success
            ++ " open port(s):" ++ (colors e).reset) ::
          data.map (fun h =>
            "  " ++ (colors e).success ++ (icons e).arrow ++ (colors e).reset ++ " Port "
              ++ (colors e).bright ++ toString h.port ++ (colors e).reset ++ " "
              ++ (colors e).success ++ "(open)" ++ (colors e).reset)
    String.intercalate "\n" (hd :: body)
  else String.intercalate "," (data.map fun _ => "[object Object]")

/-! ## Application controller (`main`, `src/index.ts` lines 407-867).

The controller state is `AppG`: the panel snapshot (`appState`), the
`lastArgs` cache, the currently open prompt-sequence modal if any
(`inputState.active` corresponds to `modal.isSome`), and a ghost log of
collaborator invocations used to state non-invocation properties.  The
`selectedIndex` navigation cursor only selects which menu branch
`runSelected` takes and enters as a parameter there. -/

/-- `lastArgs.scan` (`{ host: "", range: "1-1024" }` initially). -/
structure ScanArgs where
  host : String
  range : String
deriving DecidableEq, Repr

/-- `const lastArgs = { ping: "", dns: "", http: "", trace: "",
scan: { host: "", range: "1-1024" } };` -/
structure LastArgs where
  ping : String
  dns : String
  http : String
  trace : String
  scan : ScanArgs
deriving DecidableEq, Repr

/-- Ghost record of one collaborator invocation. -/
inductive CollabCall where
  | ping (host : String)
  | dnsLookup (host : String)
  | httpCheck (target : String)
  | traceroute (host : String)
  | portScan (host : String) (ports : List Nat)
deriving DecidableEq, Repr

/-- Defunctionalised step validators: the program uses exactly one
validator, the range check of the scan modal. -/
inductive ValD where
  | noneV
  | rangeV
deriving DecidableEq, Repr

/-- `(v) => parseRange(v).length ? null : "Invalid range. Example: 1-1024"` -/
def runValD : ValD → String → Option String
  | .noneV, _ => none
  | .rangeV, v => if (parseRange v).length ≠ 0 then none else some "Invalid range. Example: 1-1024"

/-- One prompt step as supplied by the application (`initial` is already
defaulted through the `step.initial ?? ""` of `startInput`). -/
structure StepD where
  prompt : String
  initial : String
  val : ValD
deriving DecidableEq, Repr

/-- Which `done` closure a live prompt sequence is bound to (the typed
scan path and the menu scan path bind two different closures: only the
menu one re-checks the range before scanning). -/
inductive SeqKind where
  | pingK
  | dnsK
  | httpK
  | traceK
  | scanTypedK
  | scanMenuK
deriving DecidableEq, Repr

/-- A live `promptSequence` instance: its step list, the bound completion
closure, the current step index and answer array, and the modal text
fields of `inputState`. -/
structure ModalM where
  kind : SeqKind
  steps : List StepD
  idx : Nat
  answers : List (Option String)
  prompt : String
  value : String
deriving DecidableEq, Repr

/-- The controller state. -/
structure AppG where
  pan : PanelState
  lastArgs : LastArgs
  modal : Option ModalM
  calls : List CollabCall
deriving DecidableEq, Repr

/-- Result of a controller step that can throw: `.ok` is normal
completion, `.thrown m g` is an exception with message `m` escaping with
the mutations performed so far recorded in `g` (JavaScript `try`/`catch`
keeps mutations that precede the throw). -/
inductive TryRes where
  | ok (g : AppG)
  | thrown (msg : String) (g : AppG)
deriving DecidableEq, Repr

/-- The carried state of either outcome. -/
def TryRes.state : TryRes → AppG
  | .ok g => g
  | .thrown _ g => g

/-- The escaping exception message, if any. -/
def TryRes.thrownMsg : TryRes → Option String
  | .ok _ => none
  | .thrown m _ => some m

/-- The `setMain(text, active?, status?)` operation (`src/index.ts` lines
498-504): `mainText` is always replaced, `active` and `status` only when
truthy.  (`setMain` also re-derives `selectedIndex`, which is not part of
this state.) -/
def setMainG (g : AppG) (text active2 status2 : String) : AppG :=
  { g with pan :=
    { active := if active2 = "" then g.pan.active else active2
      mainText := text
      status := if status2 = "" then g.pan.status else status2 } }

/-- `promptSequence(steps, done)` at the application level: bind the
`done` closure (`kind`), initialise the answers, and open step 0 via
`startInput` (which sets `appState.status = "input"`).  The step list is
nonempty at every call site; `[]` would crash the source and is returned
unchanged. -/
def openSeqG (g : AppG) (kind : SeqKind) (steps : List StepD) : AppG :=
  match steps with
  | [] => g
  | st0 :: _ =>
    { g with
      modal := some
        { kind := kind, steps := steps, idx := 0
          answers := List.replicate steps.length none
          prompt := st0.prompt, value := st0.initial }
      pan := { g.pan with status := "input" } }

/-- `runStep(i)` on a live modal: re-point `inputState` at step `i`. -/
def openStepG (m : ModalM) (i : Nat) (g : AppG) : AppG :=
  match m.steps[i]? with
  | some st =>
    { g with
      modal := some { m with idx := i, prompt := st.prompt, value := st.initial }
      pan := { g.pan with status := "input" } }
  | none => g

/-- `endInput(true)`: close the modal and reset the status to `ready`. -/
def endInputTrueG (g : AppG) : AppG :=
  { g with modal := none, pan := { g.pan with status := "ready" } }

/-- The body shared by the typed `ping <host>` branch (`src/index.ts`
lines 599-602) and the ping modal completion closure (lines 591-594);
the source repeats this code verbatim in both places. -/
def pingEffect (c : Collab) (host : String) (g : AppG) : TryRes :=
  let g1 := { g with lastArgs := { g.lastArgs with ping := host } }
  let g2 := setMainG g1 ("Pinging " ++ host ++ " ...") "ping" "running"
  let g3 := { g2 with calls := g2.calls ++ [.ping host] }
  match c.ping host with
  | .error m => .thrown m g3
  | .ok res => .ok (setMainG g3 res "ping" "done")

/-- Shared body of the typed `dns <host>` branch and the dns modal
completion closure. -/
def dnsEffect (e : Env) (c : Collab) (host : String) (g : AppG) : TryRes :=
  let g1 := { g with lastArgs := { g.lastArgs with dns := host } }
  let g2 := setMainG g1 ("Resolving " ++ host ++ " ...") "dns" "running"
  let g3 := { g2 with calls := g2.calls ++ [.dnsLookup host] }
  match c.dnsLookup host with
  | .error m => .thrown m g3
  | .ok res => .ok (setMainG g3 (formatDnsResult e res) "dns" "done")

/-- Shared body of the typed `http <target>` branch and the http modal
completion closure. -/
def httpEffect (e : Env) (c : Collab) (target : String) (g : AppG) : TryRes :=
  let g1 := { g with lastArgs := { g.lastArgs with http := target } }
  let g2 := setMainG g1 ("Fetching " ++ target ++ " ...") "http" "running"
  let g3 := { g2 with calls := g2.calls ++ [.httpCheck target] }
  match c.httpCheck target with
  | .error m => .thrown m g3
  | .ok res => .ok (setMainG g3 (formatHttpResult e res) "http" "done")

/-- Shared body of the typed `trace <host>` branch and the trace modal
completion closure. -/
def traceEffect (c : Collab) (host : String) (g : AppG) : TryRes :=
  let g1 := { g with lastArgs := { g.lastArgs with trace := host } }
  let g2 := setMainG g1 ("Tracing route to " ++ host ++ " ...") "trace" "running"
  let g3 := { g2 with calls := g2.calls ++ [.traceroute host] }
  match c.traceroute host with
  | .error m => .thrown m g3
  | .ok res => .ok (setMainG g3 res "trace" "done")

/-- The scanning body shared by the typed `scan <host> <range>` branch
(after its own range check), the typed scan modal closure (which performs
no check, its validator having already accepted the range), and the menu
scan modal closure (after its redundant re-check). -/
def scanEffect (e : Env) (c : Collab) (host range : String) (g : AppG) : TryRes :=
  let ports := parseRange range
  let g1 := { g with lastArgs := { g.lastArgs with scan := { host := host, range := range } } }
  let g2 := setMainG g1 ("Scanning " ++ host ++ " ports " ++ range ++ " ...") "scan" "running"
  let g3 := { g2 with calls := g2.calls ++ [.portScan host ports] }
  match c.portScan host ports with
  | .error m => .thrown m g3
  | .ok res => .ok (setMainG g3 (formatScanResult e res host) "scan" "done")

/-- The completion closures bound by the application`s prompt sequences
(`done(answers)` in `src/index.ts`). -/
def doneEffect (e : Env) (c : Collab) (k : SeqKind) (answers : List String) (g : AppG) : TryRes :=
  match k with
  | .pingK => pingEffect c (answers.getD 0 "") g
  | .dnsK => dnsEffect e c (answers.getD 0 "") g
  | .httpK => httpEffect e c (answers.getD 0 "") g
  | .traceK => traceEffect c (answers.getD 0 "") g
  | .scanTypedK => scanEffect e c (answers.getD 0 "") (answers.getD 1 "") g
  | .scanMenuK =>
    let r := answers.getD 1 ""
    if (parseRange r).length = 0 then
      .ok (setMainG g "Bad range. Example: 1-1024" "scan" "bad-range")
    else scanEffect e c (answers.getD 0 "") r g

/-- The submit path of the keypress router while a modal is open
(`src/index.ts` lines 803-807): trim the edit buffer and invoke the bound
submit handler, whose body is the `promptSequence` closure of lines
550-567.  The router performs this call with **no** `try`/`catch`, so a
`.thrown` outcome here is an exception escaping the keypress listener. -/
def modalSubmit (e : Env) (c : Collab) (g : AppG) (raw : String) : TryRes :=
  match g.modal with
  | none => .ok g
  | some m =>
    let val := jsTrim raw
    match m.steps[m.idx]? with
    | none => .ok g
    | some st =>
      match runValD st.val val with
      | some err =>
        .ok (openStepG m m.idx (setMainG g ("⛔ " ++ err) g.pan.active "input-error"))
      | none =>
        let m1 := { m with answers := m.answers.set m.idx (some val) }
        let g1 := { g with modal := some m1 }
        if m.idx + 1 < m.steps.length then .ok (openStepG m1 (m.idx + 1) g1)
        else
          match doneEffect e c m1.kind (m1.answers.map fun o => o.getD "") g1 with
          | .thrown msg g2 => .thrown msg g2
          | .ok g2 => .ok (endInputTrueG g2)

/-- `endInput(false)` at the application level, with the same mutual
recursion between `endInput` and the bound cancel callback as in
`endInputFalse` above. -/
def endInputFalseG : Nat → AppG → AppG
  | 0, g => g
  | fuel + 1, g =>
    let g1 := endInputFalseG fuel g
    { g1 with modal := none, pan := { g1.pan with status := "ready" } }

/-- The escape path of the keypress router while a modal is open. -/
def modalCancel (fuel : Nat) (g : AppG) : AppG :=
  if g.modal.isSome then endInputFalseG fuel g else g

/-- The `catch` handler of the `rl.on("line", ...)` listener
(`src/index.ts` lines 679-681):
`setMain(`Error: ${e?.message || e}`, appState.active, "error")`. -/
def catchLine : TryRes → AppG
  | .ok g => g
  | .thrown m g => setMainG g ("Error: " ++ m) g.pan.active "error"

/-- The dispatch body of the `rl.on("line", ...)` listener
(`src/index.ts` lines 574-683), after `parse`: one branch per command,
the whole dispatch wrapped in `try`/`catch` (`catchLine`).  Line events
arriving while a modal is open are consumed without any state change.
`isDebug` is `line.trim().toLowerCase() === "debug"`, and
`banner`/`debugInfo` are the two startup-constant strings. -/
def dispatchCmd (e : Env) (banner debugInfo : String) (c : Collab) (g : AppG)
    (cmd : Cmd) (isDebug : Bool) : AppG :=
  if g.modal.isSome then g else
  catchLine <|
    match cmd with
    | .help =>
      .ok (setMainG g (if isDebug then debugInfo else banner) "help"
            (if isDebug then "debug" else "help"))
    | .clear => .ok (setMainG g "" "clear" "cleared")
    | .ping host =>
      if host = "" then
        .ok (openSeqG g .pingK [{ prompt := "Host/IP to ping:", initial := "", val := .noneV }])
      else pingEffect c host g
    | .dns host =>
      if host = "" then
        .ok (openSeqG g .dnsK [{ prompt := "Hostname for DNS lookup:", initial := "", val := .noneV }])
      else dnsEffect e c host g
    | .http target =>
      if target = "" then
        .ok (openSeqG g .httpK
          [{ prompt := "URL or host for HTTP check (e.g., https://example.com):", initial := "", val := .noneV }])
      else httpEffect e c target g
    | .trace host =>
      if host = "" then
        .ok (openSeqG g .traceK [{ prompt := "Host/IP to traceroute:", initial := "", val := .noneV }])
      else traceEffect c host g
    | .scan host range =>
      if host = "" ∨ range = "" then
        .ok (openSeqG g .scanTypedK
          [ { prompt := "Host/IP to scan:", initial := "", val := .noneV }
          , { prompt := "Port range (start-end), e.g., 1-1024:", initial := "", val := .rangeV } ])
      else
        if (parseRange range).length = 0 then
          .ok (setMainG g "Bad range. Example: 1-1024" "scan" "bad-range")
        else scanEffect e c host range g

/-- The whole `rl.on("line", ...)` listener: parse the raw line and
dispatch. -/
def dispatchLine (e : Env) (banner debugInfo : String) (c : Collab) (g : AppG)
    (line : String) : AppG :=
  dispatchCmd e banner debugInfo c g (parse line)
    ((⟨(jsTrim line).data.map jsToLower⟩ : String) = "debug")

/-- `runSelected` (`src/index.ts` lines 717-789): the menu Enter action.
Every branch either calls `setMain` or opens a prompt sequence pre-filled
from `lastArgs`; nothing in it can throw, so its `try`/`catch` is inert.
`selIdx` is the navigation cursor `selectedIndex`, always a valid menu
index. -/
def runSelected (e : Env) (banner : String) (g : AppG) (selIdx : Nat) : AppG :=
  let sel := ((MENU e).getD selIdx
    { key := "", label := "", hint := "", icon := "" }).key
  if sel = "home" ∨ sel = "help" then setMainG g banner "help" "help"
  else if sel = "clear" then setMainG g "" "clear" "cleared"
  else if sel = "ping" then
    openSeqG g .pingK [{ prompt := "Host/IP to ping:", initial := g.lastArgs.ping, val := .noneV }]
  else if sel = "dns" then
    openSeqG g .dnsK [{ prompt := "Hostname for DNS lookup:", initial := g.lastArgs.dns, val := .noneV }]
  else if sel = "http" then
    openSeqG g .httpK
      [{ prompt := "URL or host for HTTP check (e.g., https://example.com):", initial := g.lastArgs.http, val := .noneV }]
  else if sel = "trace" then
    openSeqG g .traceK [{ prompt := "Host/IP to traceroute:", initial := g.lastArgs.trace, val := .noneV }]
  else if sel = "scan" then
    openSeqG g .scanMenuK
      [ { prompt := "Host/IP to scan:", initial := g.lastArgs.scan.host, val := .noneV }
      , { prompt := "Port range (start-end), e.g., 1-1024:", initial := g.lastArgs.scan.range, val := .rangeV } ]
  else g

/-! ## Statement helpers and concrete fixtures -/

/-- The lower-cased first token of a line, i.e. the verb `parse` switches
on (the `(cmd || "").toLowerCase()` of the source). -/
def firstVerb (line : String) : String :=
  match splitWS (jsTrim line).data with
  | [] => ""
  | cmd :: _ => ⟨cmd.map jsToLower⟩

/-- The verbs recognised by the `switch` of `parse`. -/
def knownVerbs : List String :=
  ["help", "clear", "debug", "ping", "dns", "http", "trace", "scan"]

/-- The closed interval enumeration `[lo, lo+1, ...]` of length
`min (hi + 1 - lo) 5000`: the specified value of `parseRange` on a match
with sorted bounds `lo ≤ hi`. -/
def rangeListSpec (lo hi : Nat) : List Nat :=
  (List.range (min (hi + 1 - lo) 5000)).map (lo + ·)

/-- The character list `a \n a \n ... a` with `n` newlines (hence `n + 1`
one-character source lines); a concrete input witnessing that `wrap` has
no cap on short lines. -/
def repAN : Nat → List Char
  | 0 => ['a']
  | n + 1 => 'a' :: '\n' :: repAN n

/-- ASCII, colourless environment (both capability probes false). -/
def envA : Env := ⟨false, false⟩

/-- A collaborator whose every operation rejects with message `boom`. -/
def cThrow : Collab :=
  { ping := fun _ => .error "boom", dnsLookup := fun _ => .error "boom"
    httpCheck := fun _ => .error "boom", traceroute := fun _ => .error "boom"
    portScan := fun _ _ => .error "boom" }

/-- A collaborator whose every operation completes normally. -/
def cOk : Collab :=
  { ping := fun _ => .ok "PONG", dnsLookup := fun _ => .ok ⟨.addrs [], [], [], []⟩
    httpCheck := fun h => .ok ⟨h, none, false, none, none, none⟩
    traceroute := fun _ => .ok "TRACE"
    portScan := fun _ _ => .ok [] }

/-- A concrete idle controller state (no modal open, `lastArgs.ping`
remembering a previous value). -/
def gIdle : AppG :=
  { pan := { active := "home", mainText := "", status := "ready" }
    lastArgs := { ping := "old", dns := "", http := "", trace := "", scan := ⟨"", "1-1024"⟩ }
    modal := none
    calls := [] }

/-- A concrete two-step prompt sequence whose second step has a
validator rejecting the empty string. -/
def stepsW : List Step :=
  [ { prompt := "first" }
  , { prompt := "second"
      validate := some fun v => if v = "" then some "empty not allowed" else none } ]

/-- `promptSequence(stepsW, done)` freshly opened. -/
def sW0 : SeqState := startSeq stepsW "m" "ready" "home"

/-- `sW0` after step 0 accepted the answer `a`. -/
def sW1 : SeqState := submitSeq stepsW sW0 "a"

/-! # Theorems -/

/-! ### Range Parser lemmas -/

theorem pushLoopGo_closed :
    ∀ (fuel p : Nat) (out : List Nat), out.length ≤ 5000 →
      pushLoopGo fuel p out = out ++ (List.range (min fuel (5000 - out.length))).map (p + ·) := by
  intro fuel
  induction fuel with
  | zero => intro p out _; simp [pushLoopGo]
  | succ n ih =>
    intro p out hout
    rw [pushLoopGo]
    by_cases hl : out.length < 5000
    · rw [if_pos hl, ih (p + 1) (out ++ [p]) (by simp; omega)]
      have hlen : (out ++ [p]).length = out.length + 1 := by simp
      have hmin : min (n + 1) (5000 - out.length) = min n (5000 - (out.length + 1)) + 1 := by
        omega
      have hfun : (fun i => (p + 1) + i) = (fun i => p + (i + 1)) := by
        funext i; omega
      rw [hlen, hmin, List.range_succ_eq_map, hfun]
      simp [List.map_map, Function.comp_def, Nat.add_comm]
    · rw [if_neg hl]
      have : 5000 - out.length = 0 := by omega
      simp [this]

theorem parseRange_match (r : String) (d1 d2 : List Char)
    (h : matchDD r.data = some (d1, d2)) :
    parseRange r = rangeListSpec (min (digitsToNat d1) (digitsToNat d2))
      (max (digitsToNat d1) (digitsToNat d2)) := by
  simp only [parseRange, h, pushLoop, rangeListSpec]
  rw [pushLoopGo_closed _ _ _ (by simp)]
  simp

theorem rangeListSpec_length (lo hi : Nat) :
    (rangeListSpec lo hi).length = min (hi + 1 - lo) 5000 := by
  simp [rangeListSpec]

theorem rangeListSpec_head (lo hi : Nat) (h : lo ≤ hi) :
    (rangeListSpec lo hi).head? = some lo := by
  have hk : min (hi + 1 - lo) 5000 = (min (hi - lo) 4999) + 1 := by omega
  rw [rangeListSpec, hk, List.range_succ_eq_map]
  simp

theorem rangeListSpec_sorted (lo hi : Nat) :
    List.Pairwise (· < ·) (rangeListSpec lo hi) := by
  refine List.Pairwise.map _ (fun a b hab => ?_) (List.pairwise_lt_range _)
  omega

set_option maxRecDepth 8000

theorem roundNat_exact (n : Nat) (h : n ≤ 2 ^ 53) : roundNat n = .finite n := by
  have hbig : (2 : Nat) ^ 53 < 2 ^ 1024 - 2 ^ 970 := by decide
  simp only [roundNat, roundFiniteNat]
  rw [if_neg (by omega), if_pos h]

theorem jsSucc_exact (n : Nat) (h : n < 2 ^ 53) :
    jsSucc (.finite n) = .finite (n + 1) := by
  simp only [jsSucc]
  exact roundNat_exact (n + 1) (by omega)

theorem pushLoopF_stall (k : Nat) (hstall : jsSucc (.finite k) = .finite k) :
    ∀ (fuel : Nat) (out : List JsNum), out.length ≤ 5000 →
      pushLoopF (.finite k) fuel (.finite k) out
        = out ++ List.replicate (min fuel (5000 - out.length)) (.finite k) := by
  intro fuel
  induction fuel with
  | zero => intro out _; simp [pushLoopF]
  | succ n ih =>
    intro out hout
    rw [pushLoopF]
    have hle : jsLe (JsNum.finite k) (JsNum.finite k) = true := by simp [jsLe]
    by_cases hl : out.length < 5000
    · rw [if_pos ⟨hle, hl⟩, hstall, ih (out ++ [JsNum.finite k]) (by simp; omega)]
      have h1 : (out ++ [JsNum.finite k]).length = out.length + 1 := by simp
      rw [h1, List.append_assoc, List.singleton_append, ← List.replicate_succ]
      congr 2
      omega
    · rw [if_neg fun hc => hl hc.2]
      have h0 : 5000 - out.length = 0 := by omega
      simp [h0]

theorem pushLoopF_exact (b : Nat) (hb : b < 2 ^ 53) :
    ∀ (fuel p : Nat) (out : List JsNum), out.length ≤ 5000 →
      pushLoopF (.finite b) fuel (.finite p) out
        = out ++ (List.range (min (min fuel (b + 1 - p)) (5000 - out.length))).map
            (fun i => JsNum.finite (p + i)) := by
  intro fuel
  induction fuel with
  | zero => intro p out _; simp [pushLoopF]
  | succ n ih =>
    intro p out hout
    rw [pushLoopF]
    by_cases hp : p ≤ b
    · by_cases hl : out.length < 5000
      · have hle : jsLe (JsNum.finite p) (JsNum.finite b) = true := by
          simp [jsLe, hp]
        rw [if_pos ⟨hle, hl⟩, jsSucc_exact p (by omega),
          ih (p + 1) (out ++ [JsNum.finite p]) (by simp; omega)]
        have h1 : (out ++ [JsNum.finite p]).length = out.length + 1 := by simp
        have hK : min (min (n + 1) (b + 1 - p)) (5000 - out.length)
            = min (min n (b + 1 - (p + 1))) (5000 - (out.length + 1)) + 1 := by omega
        have hfun : ((fun i => JsNum.finite (p + i)) ∘ Nat.succ)
            = fun i => JsNum.finite ((p + 1) + i) := by
          funext i
          show JsNum.finite (p + (i + 1)) = JsNum.finite ((p + 1) + i)
          congr 1
          omega
        rw [h1, hK, List.range_succ_eq_map, List.append_assoc, List.singleton_append]
        simp only [List.map_cons, List.map_map, Nat.add_zero, hfun]
      · rw [if_neg fun hc => hl hc.2]
        have h0 : 5000 - out.length = 0 := by omega
        simp [h0]
    · have hneg : ¬ (jsLe (JsNum.finite p) (JsNum.finite b) = true ∧ out.length < 5000) := by
        intro hc
        simp [jsLe] at hc
        omega
      rw [if_neg hneg]
      have h0 : b + 1 - p = 0 := by omega
      simp [h0]

theorem parseRangeF_match (r : String) (d1 d2 : List Char)
    (h : matchDD r.data = some (d1, d2))
    (h1 : digitsToNat d1 < 2 ^ 53) (h2 : digitsToNat d2 < 2 ^ 53) :
    parseRangeF r = (rangeListSpec (min (digitsToNat d1) (digitsToNat d2))
      (max (digitsToNat d1) (digitsToNat d2))).map JsNum.finite := by
  simp only [parseRangeF, h]
  rw [roundNat_exact _ (by omega), roundNat_exact _ (by omega)]
  by_cases hxy : digitsToNat d1 ≤ digitsToNat d2
  · have hs : sortPairJs (JsNum.finite (digitsToNat d1)) (JsNum.finite (digitsToNat d2))
        = (JsNum.finite (digitsToNat d1), JsNum.finite (digitsToNat d2)) := by
      simp [sortPairJs, jsLe, hxy]
    rw [hs]
    rw [pushLoopF_exact (digitsToNat d2) (by omega) 5000 (digitsToNat d1) [] (by simp)]
    have hmx : min (digitsToNat d1) (digitsToNat d2) = digitsToNat d1 := by omega
    have hMx : max (digitsToNat d1) (digitsToNat d2) = digitsToNat d2 := by omega
    have hm2 : min (min 5000 (digitsToNat d2 + 1 - digitsToNat d1)) (5000 - 0)
        = min (digitsToNat d2 + 1 - digitsToNat d1) 5000 := by omega
    simp only [rangeListSpec, hmx, hMx, List.nil_append, List.length_nil, hm2,
      List.map_map, Function.comp_def]
  · have hs : sortPairJs (JsNum.finite (digitsToNat d1)) (JsNum.finite (digitsToNat d2))
        = (JsNum.finite (digitsToNat d2), JsNum.finite (digitsToNat d1)) := by
      simp [sortPairJs, jsLe, hxy]
    rw [hs]
    rw [pushLoopF_exact (digitsToNat d1) (by omega) 5000 (digitsToNat d2) [] (by simp)]
    have hmx : min (digitsToNat d1) (digitsToNat d2) = digitsToNat d2 := by omega
    have hMx : max (digitsToNat d1) (digitsToNat d2) = digitsToNat d1 := by omega
    have hm2 : min (min 5000 (digitsToNat d1 + 1 - digitsToNat d2)) (5000 - 0)
        = min (digitsToNat d1 + 1 - digitsToNat d2) 5000 := by omega
    simp only [rangeListSpec, hmx, hMx, List.nil_append, List.length_nil, hm2,
      List.map_map, Function.comp_def]

theorem sortPairJs_le (x y : JsNum) :
    jsLe (sortPairJs x y).1 (sortPairJs x y).2 = true := by
  cases x with
  | finite a =>
    cases y with
    | finite b =>
      by_cases hab : a ≤ b
      · simp [sortPairJs, jsLe, hab]
      · simp [sortPairJs, jsLe, hab]
        omega
    | inf => simp [sortPairJs, jsLe]
  | inf =>
    cases y with
    | finite b => simp [sortPairJs, jsLe]
    | inf => simp [sortPairJs, jsLe]

theorem pushLoopF_length_mono (b : JsNum) :
    ∀ (fuel : Nat) (p : JsNum) (out : List JsNum),
      out.length ≤ (pushLoopF b fuel p out).length := by
  intro fuel
  induction fuel with
  | zero => intro p out; simp [pushLoopF]
  | succ n ih =>
    intro p out
    rw [pushLoopF]
    by_cases hc : jsLe p b = true ∧ out.length < 5000
    · rw [if_pos hc]
      calc out.length ≤ (out ++ [p]).length := by simp
        _ ≤ _ := ih (jsSucc p) (out ++ [p])
    · rw [if_neg hc]

theorem pushLoopF_ne_nil (b p : JsNum) (hle : jsLe p b = true) :
    pushLoopF b 5000 p [] ≠ [] := by
  have h5 : (5000 : Nat) = 4999 + 1 := by norm_num
  rw [h5, pushLoopF, if_pos ⟨hle, by decide⟩]
  intro hcontra
  have hmono := pushLoopF_length_mono b 4999 (jsSucc p) ([] ++ [p])
  rw [hcontra] at hmono
  simp at hmono

/-- `parseRange` (the exact-integer idealisation) and `parseRangeF` (the
float64-faithful model) agree on emptiness at every input: both are
empty precisely on a regexp mismatch, since on a match each pushes at
least its sorted lower bound before any cap or stall can matter.
Emptiness is the only observation the controller model makes of the
range parser, so the idealisation is sound there. -/
theorem parseRangeF_nil_iff (r : String) :
    parseRangeF r = [] ↔ parseRange r = [] := by
  cases hm : matchDD r.data with
  | none => simp [parseRangeF, parseRange, hm]
  | some dd =>
    obtain ⟨d1, d2⟩ := dd
    constructor
    · intro hF
      exfalso
      apply pushLoopF_ne_nil
        (sortPairJs (roundNat (digitsToNat d1)) (roundNat (digitsToNat d2))).2
        (sortPairJs (roundNat (digitsToNat d1)) (roundNat (digitsToNat d2))).1
        (sortPairJs_le _ _)
      simpa [parseRangeF, hm] using hF
    · intro hE
      exfalso
      have heq := parseRange_match r d1 d2 hm
      rw [heq] at hE
      have hlen := congrArg List.length hE
      rw [rangeListSpec_length] at hlen
      simp only [List.length_nil] at hlen
      omega

/-- C1 counterexample: the claim asserts that on a match with textual
bounds `a` and `b` the result is the integers from `min(a,b)` to
`max(a,b)` inclusive in ascending order (at most 5000 of them), so at
`r = "9007199254740993-9007199254740993"` — both textual bounds equal to
`2^53 + 1` — it demands the singleton `[9007199254740993]`.  The source
instead returns 5000 copies of `9007199254740992 = 2^53`: `parseInt`
rounds `2^53 + 1` down to the even neighbour `2^53`, and `p++` at `2^53`
is a float64 no-op, so the loop stalls and exits only through the
5000-entry cap.  The result is neither ascending, nor headed at the
lower textual bound, nor of the claimed length. -/
theorem c1_counterexample :
    matchDD "9007199254740993-9007199254740993".data
      = some ("9007199254740993".data, "9007199254740993".data) ∧
    digitsToNat "9007199254740993".data = 9007199254740993 ∧
    parseRangeF "9007199254740993-9007199254740993"
      = List.replicate 5000 (JsNum.finite 9007199254740992) ∧
    parseRangeF "9007199254740993-9007199254740993"
      ≠ [JsNum.finite 9007199254740993] := by
  have hm : matchDD "9007199254740993-9007199254740993".data
      = some ("9007199254740993".data, "9007199254740993".data) := by decide
  have hrd : roundNat (digitsToNat "9007199254740993".data)
      = JsNum.finite 9007199254740992 := by decide
  have hstall : jsSucc (JsNum.finite 9007199254740992)
      = JsNum.finite 9007199254740992 := by decide
  have hs : sortPairJs (JsNum.finite 9007199254740992) (JsNum.finite 9007199254740992)
      = (JsNum.finite 9007199254740992, JsNum.finite 9007199254740992) := by decide
  have hfin : ([] : List JsNum)
      ++ List.replicate (min 5000 (5000 - ([] : List JsNum).length)) (JsNum.finite 9007199254740992)
      = List.replicate 5000 (JsNum.finite 9007199254740992) := by
    rw [List.nil_append]
    congr 1
  have hloop : pushLoopF (JsNum.finite 9007199254740992) 5000 (JsNum.finite 9007199254740992) []
      = List.replicate 5000 (JsNum.finite 9007199254740992) :=
    (pushLoopF_stall 9007199254740992 hstall 5000 [] (by simp)).trans hfin
  have hun : parseRangeF "9007199254740993-9007199254740993"
      = pushLoopF (JsNum.finite 9007199254740992) 5000 (JsNum.finite 9007199254740992) [] := by
    simp only [parseRangeF, hm, hrd, hs]
  have hpr := hun.trans hloop
  refine ⟨hm, by decide, hpr, ?_⟩
  rw [hpr]
  intro hcontra
  have hlen := congrArg List.length hcontra
  simp only [List.length_replicate, List.length_singleton] at hlen
  omega

/-- C1 (amended): on any string not matching the `digits-digits` shape
the float64-faithful `parseRangeF` returns the empty list; on a match
whose textual bounds are both below `2^53` (so that `parseInt` and the
loop increment are exact) it returns the integers from `min` to `max` of
the two parsed values, inclusive and in ascending float64 order,
truncated to at most 5000 elements starting at the lower bound;
`parseRangeF "5-1" = parseRangeF "1-5" = [1,2,3,4,5]`; a range of
sub-`2^53` bounds spanning more than 5000 integers yields exactly 5000
elements; truncation is silent (the function totally returns a list,
never an error).  For bounds at or above `2^53` the enumeration clauses
fail — see the counterexample above — though the result is still a list
of at most 5000 numbers, never an error. -/
theorem c1_parseRange_amended :
    (∀ r : String, matchDD r.data = none → parseRangeF r = []) ∧
    (∀ (r : String) (d1 d2 : List Char), matchDD r.data = some (d1, d2) →
      digitsToNat d1 < 2 ^ 53 → digitsToNat d2 < 2 ^ 53 →
      parseRangeF r = (rangeListSpec (min (digitsToNat d1) (digitsToNat d2))
          (max (digitsToNat d1) (digitsToNat d2))).map JsNum.finite ∧
      (parseRangeF r).length = min (max (digitsToNat d1) (digitsToNat d2) + 1
          - min (digitsToNat d1) (digitsToNat d2)) 5000 ∧
      (parseRangeF r).head? = some (JsNum.finite (min (digitsToNat d1) (digitsToNat d2))) ∧
      List.Pairwise (fun a b => jsLt a b = true) (parseRangeF r)) ∧
    parseRangeF "5-1" = [JsNum.finite 1, JsNum.finite 2, JsNum.finite 3,
      JsNum.finite 4, JsNum.finite 5] ∧
    parseRangeF "1-5" = [JsNum.finite 1, JsNum.finite 2, JsNum.finite 3,
      JsNum.finite 4, JsNum.finite 5] ∧
    (∀ (r : String) (d1 d2 : List Char), matchDD r.data = some (d1, d2) →
      digitsToNat d1 < 2 ^ 53 → digitsToNat d2 < 2 ^ 53 →
      5000 < max (digitsToNat d1) (digitsToNat d2) + 1
        - min (digitsToNat d1) (digitsToNat d2) →
      (parseRangeF r).length = 5000) := by
  refine ⟨?_, ?_, by decide, by decide, ?_⟩
  · intro r h
    simp [parseRangeF, h]
  · intro r d1 d2 h h1 h2
    have heq := parseRangeF_match r d1 d2 h h1 h2
    refine ⟨heq, ?_, ?_, ?_⟩
    · rw [heq, List.length_map, rangeListSpec_length]
    · rw [heq, List.head?_map, rangeListSpec_head _ _ min_le_max]
      rfl
    · rw [heq]
      refine List.Pairwise.map _ (fun a b hab => ?_) (rangeListSpec_sorted _ _)
      simpa [jsLt] using hab
  · intro r d1 d2 h h1 h2 hbig
    have heq := parseRangeF_match r d1 d2 h h1 h2
    rw [heq, List.length_map, rangeListSpec_length]
    omega

/-- Witness for the amended C1 at the concrete inputs `"bogus"`
(mismatch) and `"1-6000"` (sub-`2^53` bounds spanning more than 5000
integers). -/
theorem c1_parseRange_amended_witness :
    parseRangeF "bogus" = [] ∧ (parseRangeF "1-6000").length = 5000 :=
  ⟨c1_parseRange_amended.1 "bogus" (by decide),
   c1_parseRange_amended.2.2.2.2 "1-6000" ['1'] ['6', '0', '0', '0']
     (by decide) (by decide) (by decide) (by decide)⟩

/-! ### Command Parser -/

/-- C8: the Command Parser is a pure total function of one line: it
splits on whitespace, switches on the case-insensitive first token,
fills positional fields from the remaining tokens with missing fields
defaulting to the empty string, and yields `help` for an unrecognised
first token (totality holds by construction: `parse` is a total Lean
function into `Cmd`, which has no failure variant); in particular
`parse "PING 8.8.8.8"` is the ping command for host `8.8.8.8` and the
empty line parses to `help`. -/
theorem c8_parse :
    parse "PING 8.8.8.8" = Cmd.ping "8.8.8.8" ∧
    parse "" = Cmd.help ∧
    parse "ping" = Cmd.ping "" ∧
    parse "scan example.com" = Cmd.scan "example.com" "" ∧
    (∀ line : String, firstVerb line ∉ knownVerbs → parse line = Cmd.help) := by
  refine ⟨by decide, by decide, by decide, by decide, ?_⟩
  intro line h
  rcases hs : splitWS (jsTrim line).data with _ | ⟨cmd, rest⟩
  · simp [parse, hs]
  · simp only [firstVerb, hs, knownVerbs, List.mem_cons, List.not_mem_nil, or_false,
      not_or] at h
    obtain ⟨h1, h2, h3, h4, h5, h6, h7, h8⟩ := h
    simp [parse, hs, h1, h2, h3, h4, h5, h6, h7, h8]

/-- Witness for C8 applying the unrecognised-verb clause at the concrete
line `"frobnicate x"`. -/
theorem c8_parse_witness :
    firstVerb "frobnicate x" ∉ knownVerbs ∧ parse "frobnicate x" = Cmd.help :=
  ⟨by decide, c8_parse.2.2.2.2 "frobnicate x" (by decide)⟩

/-! ### Layout Engine -/

/-- Counterexample for C5 as stated: at 32 columns the returned
`mainW` (= 2) is not `cols − sideW − 5` (= 5), and at 20 columns the
returned `mainW` is negative, so neither the fixed-margin identity nor
the non-negativity clamp holds for every column count. -/
theorem c5_counterexample :
    (getLayout 32).mainW ≠ 32 - (getLayout 32).sideW - 5 ∧
    (getLayout 20).mainW < 0 := by decide

/-- C5 (amended): for every column count of at least 35 — in particular
for every value the Frame Composer can pass, since it clamps columns to
at least 60 — `mainW = cols − sideW − 5`, both returned widths are
non-negative, and the three responsive bands hold (`< 80`: sidebar
`min 25 (cols − 10)` and `narrow`; `80–119`: the fixed nominal width;
`≥ 120`: the widened width).  Below 35 columns the identity and the
non-negativity can fail, as the counterexample shows; the source clamps
widths nowhere. -/
theorem c5_getLayout_amended :
    ∀ cols : Int, 35 ≤ cols →
      (getLayout cols).mainW = cols - (getLayout cols).sideW - 5 ∧
      0 ≤ (getLayout cols).sideW ∧
      0 ≤ (getLayout cols).mainW ∧
      ((getLayout cols).narrow = true ↔ cols < 80) ∧
      (cols < 80 → (getLayout cols).sideW = min 25 (cols - 10)) ∧
      (80 ≤ cols → cols < 120 → (getLayout cols).sideW = SIDEBAR_WIDTH) ∧
      (120 ≤ cols → (getLayout cols).sideW = SIDEBAR_WIDTH + 5) := by
  intro cols h
  unfold getLayout SIDEBAR_WIDTH
  split_ifs with h1 h2 <;>
    refine ⟨?_, ?_, ?_, ?_, ?_, ?_, ?_⟩ <;> simp_all <;> omega

/-- Witness for C5 (amended) at 60 columns (the smallest value the Frame
Composer can pass). -/
theorem c5_getLayout_witness :
    (getLayout 60).mainW = 60 - (getLayout 60).sideW - 5 ∧
    0 ≤ (getLayout 60).mainW ∧ (getLayout 60).narrow = true :=
  ⟨(c5_getLayout_amended 60 (by decide)).1,
   (c5_getLayout_amended 60 (by decide)).2.2.1,
   ((c5_getLayout_amended 60 (by decide)).2.2.2.1).mpr (by decide)⟩

/-! ### Word-wrap lemmas -/

theorem wrapInner_length_le (raw : List Char) (width : Int) :
    ∀ (n : Nat) (i : Int) (acc : List (List Char)), MAX_CONTENT_LINES - acc.length ≤ n →
      (wrapInner raw width i acc).length ≤ max (acc.length + 1) (MAX_CONTENT_LINES + 1) := by
  intro n
  induction n with
  | zero =>
    intro i acc hn
    rw [wrapInner]
    split
    · split
      · simp only [List.length_append, List.length_singleton]
        omega
      · rename_i hcap
        simp only [List.length_append, List.length_singleton, gt_iff_lt, not_lt,
          MAX_CONTENT_LINES] at hcap hn
        omega
    · omega
  | succ n ih =>
    intro i acc hn
    rw [wrapInner]
    split
    · split
      · simp only [List.length_append, List.length_singleton]
        omega
      · rename_i hcap
        have hc : (acc ++ [jsSlice raw i (i + width)]).length = acc.length + 1 := by simp
        have hle : (acc ++ [jsSlice raw i (i + width)]).length ≤ MAX_CONTENT_LINES := by
          omega
        have := ih (i + width) (acc ++ [jsSlice raw i (i + width)]) (by omega)
        omega
    · omega

theorem wrapSeg_length_le (width : Int) (lines : List (List Char)) (raw : List Char) :
    (wrapSeg width lines raw).length ≤ max (lines.length + 1) (MAX_CONTENT_LINES + 1) := by
  rw [wrapSeg]
  split
  · simp only [List.length_append, List.length_singleton]
    omega
  · exact wrapInner_length_le raw width MAX_CONTENT_LINES 0 lines (by omega)

theorem wrap_foldl_length_le (width : Int) :
    ∀ (segs : List (List Char)) (lines : List (List Char)),
      (segs.foldl (wrapSeg width) lines).length ≤
        max lines.length (MAX_CONTENT_LINES + 1) + segs.length := by
  intro segs
  induction segs with
  | nil => intro lines; simp only [List.foldl_nil, List.length_nil]; omega
  | cons s rest ih =>
    intro lines
    have h1 := ih (wrapSeg width lines s)
    have h2 := wrapSeg_length_le width lines s
    simp only [List.foldl_cons, List.length_cons]
    omega

theorem wrapInner_zero_length (raw : List Char) (hraw : raw ≠ []) :
    ∀ (n : Nat) (acc : List (List Char)), MAX_CONTENT_LINES - acc.length ≤ n →
      acc.length ≤ MAX_CONTENT_LINES →
      (wrapInner raw 0 0 acc).length = MAX_CONTENT_LINES + 1 := by
  have hlen : (0 : Int) < (raw.length : Int) := by
    have : raw.length ≠ 0 := fun hc => hraw (List.length_eq_zero.mp hc)
    omega
  intro n
  induction n with
  | zero =>
    intro acc hn hle
    rw [wrapInner, if_pos hlen]
    rw [if_pos (by simp only [List.length_append, List.length_singleton,
      gt_iff_lt, MAX_CONTENT_LINES] at *; omega)]
    simp only [List.length_append, List.length_singleton, MAX_CONTENT_LINES] at *
    omega
  | succ n ih =>
    intro acc hn hle
    rw [wrapInner, if_pos hlen]
    by_cases hcap : (acc ++ [jsSlice raw 0 (0 + 0)]).length > MAX_CONTENT_LINES
    · rw [if_pos hcap]
      simp only [List.length_append, List.length_singleton, gt_iff_lt,
        MAX_CONTENT_LINES] at *
      omega
    · rw [if_neg hcap]
      have hc : (acc ++ [jsSlice raw 0 (0 + 0)]).length = acc.length + 1 := by simp
      have := ih (acc ++ [jsSlice raw 0 (0 + 0)]) (by omega)
        (by simp only [gt_iff_lt, not_lt] at hcap; omega)
      simpa using this

theorem jsSlice_chunk_le (s : List Char) (i w : Int) (hi : 0 ≤ i) (hw : 0 ≤ w) :
    ((jsSlice s i (i + w)).length : Int) ≤ w := by
  simp only [jsSlice, jsSliceIdx]
  rw [if_neg (by omega), if_neg (by omega)]
  simp only [List.length_drop, List.length_take]
  omega

theorem wrapInner_mem (raw : List Char) (width : Int) (hw : 0 ≤ width) :
    ∀ (n : Nat) (i : Int) (acc : List (List Char)), 0 ≤ i →
      MAX_CONTENT_LINES - acc.length ≤ n →
      ∀ l ∈ wrapInner raw width i acc, l ∈ acc ∨ (l.length : Int) ≤ width := by
  intro n
  induction n with
  | zero =>
    intro i acc hi hn l hl
    rw [wrapInner] at hl
    split at hl
    · split at hl
      · rcases List.mem_append.mp hl with h | h
        · exact Or.inl h
        · rw [List.mem_singleton.mp h]
          exact Or.inr (jsSlice_chunk_le raw i width hi hw)
      · rename_i hcap
        have hfalse : False := by
          simp only [List.length_append, List.length_singleton, gt_iff_lt, not_lt,
            MAX_CONTENT_LINES] at hcap hn
          omega
        exact hfalse.elim
    · exact Or.inl hl
  | succ n ih =>
    intro i acc hi hn l hl
    rw [wrapInner] at hl
    split at hl
    · split at hl
      · rcases List.mem_append.mp hl with h | h
        · exact Or.inl h
        · rw [List.mem_singleton.mp h]
          exact Or.inr (jsSlice_chunk_le raw i width hi hw)
      · rename_i hcap
        have hcap' := hcap
        simp only [List.length_append, List.length_singleton, gt_iff_lt, not_lt] at hcap'
        rcases ih (i + width) (acc ++ [jsSlice raw i (i + width)]) (by omega)
          (by simp only [List.length_append, List.length_singleton]; omega) l hl with h | h
        · rcases List.mem_append.mp h with h' | h'
          · exact Or.inl h'
          · rw [List.mem_singleton.mp h']
            exact Or.inr (jsSlice_chunk_le raw i width hi hw)
        · exact Or.inr h
    · exact Or.inl hl

theorem wrapSeg_mem (width : Int) (hw : 0 ≤ width) (lines : List (List Char))
    (raw : List Char) :
    ∀ l ∈ wrapSeg width lines raw, l ∈ lines ∨ (l.length : Int) ≤ width := by
  intro l hl
  rw [wrapSeg] at hl
  split at hl
  · rcases List.mem_append.mp hl with h | h
    · exact Or.inl h
    · rw [List.mem_singleton.mp h]
      rename_i hshort
      exact Or.inr hshort
  · exact wrapInner_mem raw width hw MAX_CONTENT_LINES 0 lines le_rfl (by omega) l hl

theorem wrap_foldl_mem (width : Int) (hw : 0 ≤ width) :
    ∀ (segs lines : List (List Char)) (l : List Char),
      l ∈ segs.foldl (wrapSeg width) lines → l ∈ lines ∨ (l.length : Int) ≤ width := by
  intro segs
  induction segs with
  | nil => intro lines l hl; exact Or.inl (by simpa using hl)
  | cons s rest ih =>
    intro lines l hl
    rcases ih (wrapSeg width lines s) l (by simpa using hl) with h | h
    · exact wrapSeg_mem width hw lines s l h
    · exact Or.inr h

theorem splitLines_repAN : ∀ n : Nat, splitLines (repAN n) = List.replicate (n + 1) ['a'] := by
  intro n
  induction n with
  | zero => rfl
  | succ n ih =>
    show splitLines ('a' :: '\n' :: repAN n) = _
    simp only [splitLines, if_neg (by decide : ¬ ('a' = '\n')), if_pos rfl, ih]
    rfl

theorem foldl_all_short (width : Int) :
    ∀ (segs lines : List (List Char)), (∀ s ∈ segs, (s.length : Int) ≤ width) →
      segs.foldl (wrapSeg width) lines = lines ++ segs := by
  intro segs
  induction segs with
  | nil => intro lines _; simp
  | cons s rest ih =>
    intro lines hshort
    simp only [List.foldl_cons]
    rw [wrapSeg, if_pos (hshort s (List.mem_cons_self s rest)),
      ih (lines ++ [s]) (fun t ht => hshort t (List.mem_cons_of_mem s ht))]
    simp

/-- Counterexample for C4 as stated: the text of 2001 one-character
source lines is wrapped (at any width, here 10) to 2001 lines — the
short-line branch of `wrap` pushes unconditionally, so the total is not
capped at 2000 and nothing beyond 2000 is dropped. -/
theorem c4_counterexample :
    MAX_CONTENT_LINES < (wrap ⟨repAN 2000⟩ 10).length := by
  have h1 : (⟨repAN 2000⟩ : String).data = repAN 2000 := rfl
  simp only [wrap, h1, splitLines_repAN, List.length_map]
  rw [foldl_all_short 10 _ []
    (fun s hs => by rw [List.eq_of_mem_replicate hs]; simp)]
  simp only [List.nil_append, List.length_replicate, MAX_CONTENT_LINES]
  omega

/-- C4 (amended): for every text and nonnegative width, the Frame
Composer word-wrap hard-breaks each source line into chunks of at most
`width` characters with no word-boundary awareness; however the
`MAX_CONTENT_LINES` constant (2000) is not a cap on the total produced
lines: the test runs only after a push and only breaks the inner
chunking loop, so a single long source line can produce up to 2001 lines
(never more), and short source lines are appended with no cap at all —
the counterexample shows a 2001-line result made of short lines, and the
resource bound for the general case is the subject of the termination
claim. -/
theorem c4_wrap_amended :
    ∀ (text : String) (width : Int), 0 ≤ width →
      (∀ l ∈ wrap text width, ((l.length : Int) ≤ width)) ∧
      ((splitLines text.data).length = 1 →
        (wrap text width).length ≤ MAX_CONTENT_LINES + 1) := by
  intro text width hw
  constructor
  · intro l hl
    simp only [wrap, List.mem_map] at hl
    obtain ⟨l', hl', rfl⟩ := hl
    rcases wrap_foldl_mem width hw (splitLines text.data) [] l' hl' with h | h
    · exact absurd h (List.not_mem_nil _)
    · simpa [String.length] using h
  · intro hone
    have hexists : ∃ seg, splitLines text.data = [seg] := by
      rcases hsp : splitLines text.data with _ | ⟨seg, rest⟩
      · simp [hsp] at hone
      · rcases rest with _ | ⟨s2, r2⟩
        · exact ⟨seg, rfl⟩
        · simp [hsp] at hone
    obtain ⟨seg, hseg⟩ := hexists
    simp only [wrap, List.length_map, hseg, List.foldl_cons, List.foldl_nil]
    have := wrapSeg_length_le width [] seg
    simpa using this

/-- Witness for C4 (amended) at the concrete text `"hello"` and width 3. -/
theorem c4_wrap_witness :
    (∀ l ∈ wrap "hello" 3, ((l.length : Int) ≤ 3)) ∧
    (wrap "hello" 3).length ≤ MAX_CONTENT_LINES + 1 :=
  ⟨(c4_wrap_amended "hello" 3 (by decide)).1,
   (c4_wrap_amended "hello" 3 (by decide)).2 (by decide)⟩

/-- C10: `wrap` is a total function whose output is finite for every
text and every integer width, including zero and negative widths where
the slice index make no forward progress: the output length is bounded
by the number of source lines plus `MAX_CONTENT_LINES + 1`, and for a
nonempty line at width 0 it is the inner loop cap itself that stops the
enumeration, at exactly `MAX_CONTENT_LINES + 1` produced lines. -/
theorem c10_wrap_termination :
    (∀ (text : String) (width : Int),
      (wrap text width).length ≤ (MAX_CONTENT_LINES + 1) + (splitLines text.data).length) ∧
    (wrap "ab" 0).length = MAX_CONTENT_LINES + 1 := by
  constructor
  · intro text width
    simp only [wrap, List.length_map]
    have := wrap_foldl_length_le width (splitLines text.data) []
    simp only [List.length_nil, Nat.max_eq_right (Nat.zero_le _)] at this
    omega
  · have h2 := wrapInner_zero_length ['a', 'b'] (by decide) MAX_CONTENT_LINES []
      (by simp) (by simp)
    have h1 : splitLines "ab".data = [['a', 'b']] := rfl
    have h3 : (wrap "ab" 0).length = (wrapInner ['a', 'b'] 0 0 []).length := by
      unfold wrap
      rw [h1, List.foldl_cons, List.foldl_nil, List.length_map, wrapSeg, if_neg (by simp)]
    exact h3.trans h2

/-! ### Frame Composer lemmas -/

theorem colorizeStatus_fst_congr (e : Env) (s : String) (i j : Nat) (h : s ≠ "running") :
    (colorizeStatus e s i).1 = (colorizeStatus e s j).1 := by
  simp only [colorizeStatus, if_neg h, apply_ite Prod.fst]

theorem colorizeStatus_snd_eq (e : Env) (s : String) (i : Nat) (h : s ≠ "running") :
    (colorizeStatus e s i).2 = i := by
  simp only [colorizeStatus, if_neg h, apply_ite Prod.snd, ite_self]

theorem renderStatusBar_fst_congr (e : Env) (state : PanelState) (input : InputState)
    (cols : Int) (time : String) (i j : Nat)
    (h : (if input.active then "input" else state.status) ≠ "running") :
    (renderStatusBar e state input cols time i).1 =
      (renderStatusBar e state input cols time j).1 := by
  simp only [renderStatusBar]
  rw [colorizeStatus_fst_congr e _ i j h]

theorem renderStatusBar_snd_eq (e : Env) (state : PanelState) (input : InputState)
    (cols : Int) (time : String) (i : Nat)
    (h : (if input.active then "input" else state.status) ≠ "running") :
    (renderStatusBar e state input cols time i).2 = i := by
  simp only [renderStatusBar]
  exact colorizeStatus_snd_eq e _ i h

theorem intercalate_go_snoc :
    ∀ (l : List String) (acc y : String),
      String.intercalate.go acc "\n" (l ++ [y]) =
        String.intercalate.go acc "\n" l ++ "\n" ++ y := by
  intro l
  induction l with
  | nil => intro acc y; rfl
  | cons a as ih => intro acc y; exact ih (acc ++ "\n" ++ a) y

theorem string_append_left_cancel {a x y : String} (h : a ++ x = a ++ y) : x = y := by
  have hd := congrArg String.data h
  simp only [String.data_append] at hd
  exact String.ext (List.append_cancel_left hd)

theorem intercalate_snoc_inj (xs : List String) (y z : String) (hxs : xs ≠ [])
    (h : String.intercalate "\n" (xs ++ [y]) = String.intercalate "\n" (xs ++ [z])) :
    y = z := by
  rcases xs with _ | ⟨a, as⟩
  · exact absurd rfl hxs
  · have h2 : String.intercalate.go a "\n" (as ++ [y]) =
        String.intercalate.go a "\n" (as ++ [z]) := h
    rw [intercalate_go_snoc, intercalate_go_snoc] at h2
    exact string_append_left_cancel h2

theorem renderFrameRows_ne_nil (e : Env) (state : PanelState) (input : InputState)
    (cols0 rows0 : Nat) : renderFrameRows e state input cols0 rows0 ≠ [] := by
  simp [renderFrameRows]

theorem renderUI_fst_inj (e : Env) (state : PanelState) (input : InputState)
    (cols0 rows0 : Nat) (time : String) (i j : Nat)
    (h : (renderUI e state input cols0 rows0 time i).1 =
      (renderUI e state input cols0 rows0 time j).1) :
    (renderStatusBar e state input ((max 60 cols0 : Nat) : Int) time i).1 =
      (renderStatusBar e state input ((max 60 cols0 : Nat) : Int) time j).1 := by
  simp only [renderUI] at h
  exact intercalate_snoc_inj _ _ _ (renderFrameRows_ne_nil e state input cols0 rows0) h

/-- Counterexample for C3 as stated: with status `running` and the modal
closed, two successive calls of the Frame Composer on identical state,
dimensions and clock differ — the status bar samples the module-level
spinner index, which the first call advances (its second component is 1),
so the second call renders a different spinner glyph. -/
theorem c3_counterexample :
    (renderUI envA ⟨"ping", "x", "running"⟩ ⟨false, "", "", "hint"⟩ 0 0 "12:00:00" 0).1 ≠
      (renderUI envA ⟨"ping", "x", "running"⟩ ⟨false, "", "", "hint"⟩ 0 0 "12:00:00"
        ((renderUI envA ⟨"ping", "x", "running"⟩ ⟨false, "", "", "hint"⟩ 0 0
          "12:00:00" 0).2)).1 := by
  intro heq
  have h2 : (renderUI envA ⟨"ping", "x", "running"⟩ ⟨false, "", "", "hint"⟩ 0 0
      "12:00:00" 0).2 = 1 := rfl
  rw [h2] at heq
  have hy := renderUI_fst_inj envA ⟨"ping", "x", "running"⟩ ⟨false, "", "", "hint"⟩
    0 0 "12:00:00" 0 1 heq
  have hne : (renderStatusBar envA ⟨"ping", "x", "running"⟩ ⟨false, "", "", "hint"⟩
      ((max 60 0 : Nat) : Int) "12:00:00" 0).1 ≠
      (renderStatusBar envA ⟨"ping", "x", "running"⟩ ⟨false, "", "", "hint"⟩
      ((max 60 0 : Nat) : Int) "12:00:00" 1).1 := by decide
  exact hne hy

/-- C3 (amended): the Frame Composer is deterministic in its explicit
inputs — state, input state, terminal dimensions, and the status-bar
clock — **except** when the displayed status is `running`: the `running`
arm of `colorizeStatus` samples and advances the module-global spinner
index, so two successive calls then differ in the spinner glyph (see the
counterexample).  Whenever the modal is open (the displayed status is
then `input`) or the panel status is not `running`, the output is
byte-identical across calls and the spinner index is left unchanged, so
the only varying content is the clock field passed to the status bar. -/
theorem c3_renderUI_amended :
    ∀ (e : Env) (state : PanelState) (input : InputState) (cols0 rows0 : Nat)
      (time : String) (i j : Nat),
      (input.active = true ∨ state.status ≠ "running") →
      (renderUI e state input cols0 rows0 time i).1 =
        (renderUI e state input cols0 rows0 time j).1 ∧
      (renderUI e state input cols0 rows0 time i).2 = i := by
  intro e state input cols0 rows0 time i j h
  have hd : (if input.active then "input" else state.status) ≠ "running" := by
    rcases h with h | h
    · simp [h]
    · by_cases ha : input.active <;> simp [ha, h]
  constructor
  · simp only [renderUI]
    rw [renderStatusBar_fst_congr e state input _ time i j hd]
  · simp only [renderUI]
    exact renderStatusBar_snd_eq e state input _ time i hd

/-- Witness for C3 (amended) on a concrete `done` state with spinner
indices 0 and 7. -/
theorem c3_renderUI_witness :
    (renderUI envA ⟨"home", "hi", "done"⟩ ⟨false, "", "", "hint"⟩ 0 0 "12:00:00" 0).1 =
      (renderUI envA ⟨"home", "hi", "done"⟩ ⟨false, "", "", "hint"⟩ 0 0 "12:00:00" 7).1 ∧
    (renderUI envA ⟨"home", "hi", "done"⟩ ⟨false, "", "", "hint"⟩ 0 0 "12:00:00" 0).2 = 0 :=
  c3_renderUI_amended envA ⟨"home", "hi", "done"⟩ ⟨false, "", "", "hint"⟩ 0 0
    "12:00:00" 0 7 (Or.inr (by decide))

/-! ### Prompt Sequencer lemmas -/

theorem endInputFalse_fields (fuel : Nat) (s : SeqState) :
    (endInputFalse fuel s).doneCount = s.doneCount ∧
    (endInputFalse fuel s).doneWith = s.doneWith ∧
    (endInputFalse fuel s).answers = s.answers ∧
    (1 ≤ fuel → (endInputFalse fuel s).modalOpen = false) := by
  induction fuel with
  | zero => exact ⟨rfl, rfl, rfl, fun h => absurd h (by omega)⟩
  | succ n ih => exact ⟨ih.1, ih.2.1, ih.2.2.1, fun _ => rfl⟩

theorem submitSeq_fail (steps : List Step) (s : SeqState) (v : String) (st : Step)
    (err : String) (hopen : s.modalOpen = true) (hst : steps[s.idx]? = some st)
    (hval : runValidate st v = some err) :
    submitSeq steps s v =
      openStep steps s.idx (setMainS s ("⛔ " ++ err) s.active "input-error") := by
  simp [submitSeq, hopen, hst, hval]

theorem submitSeq_pass_mid (steps : List Step) (s : SeqState) (v : String) (st : Step)
    (hopen : s.modalOpen = true) (hst : steps[s.idx]? = some st)
    (hval : runValidate st v = none) (hlt : s.idx + 1 < steps.length) :
    submitSeq steps s v =
      openStep steps (s.idx + 1) { s with answers := s.answers.set s.idx (some v) } := by
  simp [submitSeq, hopen, hst, hval, hlt]

theorem submitSeq_pass_last (steps : List Step) (s : SeqState) (v : String) (st : Step)
    (hopen : s.modalOpen = true) (hst : steps[s.idx]? = some st)
    (hval : runValidate st v = none) (hge : ¬ (s.idx + 1 < steps.length)) :
    submitSeq steps s v = closeModal
      { s with
        answers := s.answers.set s.idx (some v)
        doneCount := s.doneCount + 1
        doneWith := some ((s.answers.set s.idx (some v)).map fun o => o.getD "") } := by
  simp [submitSeq, hopen, hst, hval, hge]

theorem submitSeq_inv (steps : List Step) (s : SeqState) (v : String)
    (h : SeqInv steps s) : SeqInv steps (submitSeq steps s v) := by
  obtain ⟨h1, h2, h3, h4⟩ := h
  by_cases hopen : s.modalOpen = true
  · rcases hst : steps[s.idx]? with _ | st
    · simpa [submitSeq, hopen, hst] using ⟨h1, h2, h3, h4⟩
    · rcases hval : runValidate st v with _ | err
      · by_cases hlt : s.idx + 1 < steps.length
        · rw [submitSeq_pass_mid steps s v st hopen hst hval hlt]
          rcases hst2 : steps[s.idx + 1]? with _ | st2
          · have := List.getElem?_eq_none_iff.mp hst2
            omega
          · simp only [openStep, hst2, SeqInv]
            exact ⟨h1, fun _ => h2 hopen, by simpa using h3, h4⟩
        · rw [submitSeq_pass_last steps s v st hopen hst hval hlt]
          simp only [closeModal, SeqInv]
          refine ⟨by have := h2 hopen; omega, by simp, by simpa using h3, ?_⟩
          intro l hl
          cases hl
          simp [h3]
      · rw [submitSeq_fail steps s v st err hopen hst hval]
        simp only [openStep, hst, setMainS, SeqInv]
        exact ⟨h1, fun _ => h2 hopen, h3, h4⟩
  · simpa [submitSeq, hopen] using ⟨h1, h2, h3, h4⟩

theorem cancelSeq_inv (steps : List Step) (fuel : Nat) (s : SeqState)
    (h : SeqInv steps s) : SeqInv steps (cancelSeq fuel s) := by
  obtain ⟨h1, h2, h3, h4⟩ := h
  by_cases hopen : s.modalOpen = true
  · obtain ⟨e1, e2, e3, e4⟩ := endInputFalse_fields fuel s
    simp only [cancelSeq, hopen, if_true, SeqInv]
    refine ⟨by rw [e1]; exact h1, ?_, by rw [e3]; exact h3,
      fun l hl => h4 l (by rw [← e2]; exact hl)⟩
    intro hm
    rw [e1]
    cases fuel with
    | zero => exact h2 hopen
    | succ n =>
      rw [e4 (by omega)] at hm
      cases hm
  · simpa [cancelSeq, hopen] using ⟨h1, h2, h3, h4⟩

theorem runSeq_inv (steps : List Step) (evs : List SeqEv) :
    ∀ s : SeqState, SeqInv steps s → SeqInv steps (runSeq steps s evs) := by
  induction evs with
  | nil => intro s h; exact h
  | cons ev rest ih =>
    intro s h
    have hstep : runSeq steps s (ev :: rest) =
        runSeq steps
          (match ev with
            | .submit v => submitSeq steps s v
            | .cancel fuel => cancelSeq fuel s) rest := rfl
    rw [hstep]
    apply ih
    cases ev with
    | submit v => exact submitSeq_inv steps s v h
    | cancel fuel => exact cancelSeq_inv steps fuel s h

theorem startSeq_inv (steps : List Step) (mt st0 ac : String) :
    SeqInv steps (startSeq steps mt st0 ac) := by
  rcases steps with _ | ⟨st, rest⟩
  · simp [startSeq, openStep, SeqInv]
  · simp [startSeq, openStep, SeqInv]

/-- C2: for every step list run by `promptSequence`: a submit whose value
the current step's validator rejects surfaces the message as the output
text via a `setMain` with status `input-error` and re-opens the same step
(same index, modal still open, edit buffer reset to the step's initial
value — so this can repeat indefinitely, and nothing else changes); a
submit that passes records the value at the step's index and either opens
the next step or, after the last step, invokes the completion handler
with the full ordered answer list and closes the modal; cancellation at
any step closes the modal and never invokes the completion handler; and
along any event trace from a fresh sequence the completion handler fires
at most once, always receiving one answer per step. -/
theorem c2_promptSequence :
    (∀ (steps : List Step) (s : SeqState) (v : String) (st : Step) (err : String),
      s.modalOpen = true → steps[s.idx]? = some st → runValidate st v = some err →
        (submitSeq steps s v).idx = s.idx ∧
        (submitSeq steps s v).modalOpen = true ∧
        (submitSeq steps s v).prompt = st.prompt ∧
        (submitSeq steps s v).value = st.initial.getD "" ∧
        (submitSeq steps s v).mainText = "⛔ " ++ err ∧
        (submitSeq steps s v).status = "input" ∧
        (submitSeq steps s v).setMainLog = s.setMainLog ++ [("⛔ " ++ err, "input-error")] ∧
        (submitSeq steps s v).answers = s.answers ∧
        (submitSeq steps s v).doneCount = s.doneCount ∧
        (submitSeq steps s v).doneWith = s.doneWith) ∧
    (∀ (steps : List Step) (s : SeqState) (v : String) (st st2 : Step),
      s.modalOpen = true → steps[s.idx]? = some st → runValidate st v = none →
      s.idx + 1 < steps.length → steps[s.idx + 1]? = some st2 →
        (submitSeq steps s v).answers = s.answers.set s.idx (some v) ∧
        (submitSeq steps s v).idx = s.idx + 1 ∧
        (submitSeq steps s v).modalOpen = true ∧
        (submitSeq steps s v).prompt = st2.prompt ∧
        (submitSeq steps s v).value = st2.initial.getD "" ∧
        (submitSeq steps s v).doneCount = s.doneCount ∧
        (submitSeq steps s v).doneWith = s.doneWith) ∧
    (∀ (steps : List Step) (s : SeqState) (v : String) (st : Step),
      s.modalOpen = true → steps[s.idx]? = some st → runValidate st v = none →
      ¬ (s.idx + 1 < steps.length) →
        (submitSeq steps s v).doneCount = s.doneCount + 1 ∧
        (submitSeq steps s v).doneWith =
          some ((s.answers.set s.idx (some v)).map fun o => o.getD "") ∧
        (submitSeq steps s v).modalOpen = false ∧
        (submitSeq steps s v).status = "ready" ∧
        (submitSeq steps s v).answers = s.answers.set s.idx (some v)) ∧
    (∀ (fuel : Nat) (s : SeqState), s.modalOpen = true → 1 ≤ fuel →
        (cancelSeq fuel s).modalOpen = false ∧
        (cancelSeq fuel s).doneCount = s.doneCount ∧
        (cancelSeq fuel s).doneWith = s.doneWith ∧
        (cancelSeq fuel s).answers = s.answers) ∧
    (∀ (steps : List Step) (mt st0 ac : String) (evs : List SeqEv),
        (runSeq steps (startSeq steps mt st0 ac) evs).doneCount ≤ 1 ∧
        ∀ l, (runSeq steps (startSeq steps mt st0 ac) evs).doneWith = some l →
          l.length = steps.length) := by
  refine ⟨?_, ?_, ?_, ?_, ?_⟩
  · intro steps s v st err hopen hst hval
    rw [submitSeq_fail steps s v st err hopen hst hval]
    simp [openStep, hst, setMainS]
  · intro steps s v st st2 hopen hst hval hlt hst2
    rw [submitSeq_pass_mid steps s v st hopen hst hval hlt]
    simp [openStep, hst2]
  · intro steps s v st hopen hst hval hge
    rw [submitSeq_pass_last steps s v st hopen hst hval hge]
    simp [closeModal]
  · intro fuel s hopen hf
    obtain ⟨e1, e2, e3, e4⟩ := endInputFalse_fields fuel s
    simp only [cancelSeq, hopen, if_true]
    exact ⟨e4 hf, e1, e2, e3⟩
  · intro steps mt st0 ac evs
    have h := runSeq_inv steps evs (startSeq steps mt st0 ac) (startSeq_inv steps mt st0 ac)
    exact ⟨h.1, h.2.2.2⟩

/-- Witness for C2 on the concrete two-step sequence `stepsW`: after step
0 accepted the answer `a`, an empty submit is rejected by step 1's
validator and re-opens step 1 with the message surfaced, a subsequent
valid submit completes the sequence exactly once with both answers in
order, and cancelling a fresh instance closes it without completing. -/
theorem c2_promptSequence_witness :
    (submitSeq stepsW sW1 "").idx = sW1.idx ∧
    (submitSeq stepsW sW1 "").modalOpen = true ∧
    (submitSeq stepsW sW1 "").mainText = "⛔ empty not allowed" ∧
    (submitSeq stepsW sW1 "b").doneCount = sW1.doneCount + 1 ∧
    (submitSeq stepsW sW1 "b").doneWith = some ["a", "b"] ∧
    (submitSeq stepsW sW1 "b").modalOpen = false ∧
    (cancelSeq 3 sW0).modalOpen = false ∧
    (cancelSeq 3 sW0).doneCount = sW0.doneCount := by
  have hfail := c2_promptSequence.1 stepsW sW1 ""
    { prompt := "second", validate := some fun v => if v = "" then some "empty not allowed" else none }
    "empty not allowed" (by decide) rfl rfl
  have hlast := c2_promptSequence.2.2.1 stepsW sW1 "b"
    { prompt := "second", validate := some fun v => if v = "" then some "empty not allowed" else none }
    (by decide) rfl rfl (by decide)
  have hcancel := c2_promptSequence.2.2.2.1 3 sW0 (by decide) (by omega)
  exact ⟨hfail.1, hfail.2.1, hfail.2.2.2.2.1, hlast.1,
    hlast.2.1.trans (by decide), hlast.2.2.1, hcancel.1, hcancel.2.1⟩

/-! ### Task Runner error handling -/

/-- C6 (amended): when a collaborator invocation rejects on the
typed-command-with-arguments path, the failure is caught by the line
listener's `try`/`catch`, the output becomes `Error: <message>` with
status `error`, and execution continues (the dispatcher returns a normal
state, the modal stays closed).  The original claim's further assertion
that the typed-command modal path and the menu path are caught in the
same way is false: their collaborator calls run inside the completion
closure invoked by `await inputState.submit(val)` in the keypress
listener, which has no `try`/`catch`, so such a rejection escapes the
Task Runner uncaught, with the state still showing status `running` and
the modal still open (see the counterexample). -/
theorem c6_collab_failures :
    (∀ (e : Env) (banner debugInfo : String) (c : Collab) (g : AppG) (host m : String),
      g.modal = none → host ≠ "" → c.ping host = .error m →
        (dispatchCmd e banner debugInfo c g (.ping host) false).pan.mainText = "Error: " ++ m ∧
        (dispatchCmd e banner debugInfo c g (.ping host) false).pan.status = "error" ∧
        (dispatchCmd e banner debugInfo c g (.ping host) false).modal = none) ∧
    (∀ (e : Env) (banner debugInfo : String) (c : Collab) (g : AppG) (host m : String),
      g.modal = none → host ≠ "" → c.dnsLookup host = .error m →
        (dispatchCmd e banner debugInfo c g (.dns host) false).pan.mainText = "Error: " ++ m ∧
        (dispatchCmd e banner debugInfo c g (.dns host) false).pan.status = "error") ∧
    (∀ (e : Env) (banner debugInfo : String) (c : Collab) (g : AppG) (target m : String),
      g.modal = none → target ≠ "" → c.httpCheck target = .error m →
        (dispatchCmd e banner debugInfo c g (.http target) false).pan.mainText = "Error: " ++ m ∧
        (dispatchCmd e banner debugInfo c g (.http target) false).pan.status = "error") ∧
    (∀ (e : Env) (banner debugInfo : String) (c : Collab) (g : AppG) (host m : String),
      g.modal = none → host ≠ "" → c.traceroute host = .error m →
        (dispatchCmd e banner debugInfo c g (.trace host) false).pan.mainText = "Error: " ++ m ∧
        (dispatchCmd e banner debugInfo c g (.trace host) false).pan.status = "error") ∧
    (∀ (e : Env) (banner debugInfo : String) (c : Collab) (g : AppG) (host range m : String),
      g.modal = none → host ≠ "" → range ≠ "" → (parseRange range).length ≠ 0 →
      c.portScan host (parseRange range) = .error m →
        (dispatchCmd e banner debugInfo c g (.scan host range) false).pan.mainText
          = "Error: " ++ m ∧
        (dispatchCmd e banner debugInfo c g (.scan host range) false).pan.status = "error") ∧
    (∀ (e : Env) (c : Collab) (g : AppG) (mm : ModalM) (raw msg : String),
      g.modal = some mm → mm.kind = .pingK →
      mm.steps = [{ prompt := "Host/IP to ping:", initial := "", val := .noneV }] →
      mm.idx = 0 → mm.answers = [none] →
      c.ping (jsTrim raw) = .error msg →
        (modalSubmit e c g raw).thrownMsg = some msg ∧
        (modalSubmit e c g raw).state.pan.status = "running" ∧
        (modalSubmit e c g raw).state.modal.isSome = true) := by
  refine ⟨?_, ?_, ?_, ?_, ?_, ?_⟩
  · intro e banner debugInfo c g host m hmodal hhost hc
    simp [dispatchCmd, hmodal, hhost, pingEffect, hc, catchLine, setMainG]
  · intro e banner debugInfo c g host m hmodal hhost hc
    simp [dispatchCmd, hmodal, hhost, dnsEffect, hc, catchLine, setMainG]
  · intro e banner debugInfo c g target m hmodal htarget hc
    simp [dispatchCmd, hmodal, htarget, httpEffect, hc, catchLine, setMainG]
  · intro e banner debugInfo c g host m hmodal hhost hc
    simp [dispatchCmd, hmodal, hhost, traceEffect, hc, catchLine, setMainG]
  · intro e banner debugInfo c g host range m hmodal hhost hrange hports hc
    simp [dispatchCmd, hmodal, hhost, hrange, hports, scanEffect, hc, catchLine, setMainG]
  · intro e c g mm raw msg hmodal hkind hsteps hidx hans hc
    obtain ⟨kind, steps, idx, answers, prompt, value⟩ := mm
    simp only at hkind hsteps hidx hans
    subst hkind hsteps hidx hans
    simp [modalSubmit, hmodal, doneEffect, pingEffect, hc, setMainG,
      TryRes.thrownMsg, TryRes.state, runValD]

/-- Counterexample for C6 as stated: the ping modal is opened by the
typed command `ping` without arguments, and the collaborator rejects
with `boom` on submit.  The rejection escapes the keypress listener as
an exception (it is not caught at the Task Runner boundary), the panel
still shows status `running` — not `Error: boom` with status `error` —
and the modal is stuck open. -/
theorem c6_counterexample :
    (modalSubmit envA cThrow
        (dispatchCmd envA "B" "D" cThrow gIdle (.ping "") false) "h").thrownMsg
      = some "boom" ∧
    (modalSubmit envA cThrow
        (dispatchCmd envA "B" "D" cThrow gIdle (.ping "") false) "h").state.pan.status
      = "running" ∧
    (modalSubmit envA cThrow
        (dispatchCmd envA "B" "D" cThrow gIdle (.ping "") false) "h").state.pan.mainText
      = "Pinging h ..." ∧
    (modalSubmit envA cThrow
        (dispatchCmd envA "B" "D" cThrow gIdle (.ping "") false) "h").state.modal.isSome
      = true := by decide

/-- Witness for C6 (amended) on the direct typed path with the
all-rejecting collaborator. -/
theorem c6_collab_failures_witness :
    (dispatchCmd envA "B" "D" cThrow gIdle (.ping "8.8.8.8") false).pan.mainText
      = "Error: boom" ∧
    (dispatchCmd envA "B" "D" cThrow gIdle (.ping "8.8.8.8") false).pan.status = "error" ∧
    (dispatchCmd envA "B" "D" cThrow gIdle (.scan "localhost" "1-3") false).pan.mainText
      = "Error: boom" := by
  have hping := c6_collab_failures.1 envA "B" "D" cThrow gIdle "8.8.8.8" "boom"
    rfl (by decide) rfl
  have hscan := c6_collab_failures.2.2.2.2.1 envA "B" "D" cThrow gIdle "localhost" "1-3"
    "boom" rfl (by decide) (by decide) (by decide) rfl
  exact ⟨hping.1, hping.2.1, hscan.1⟩

/-- C7: typing a scan command with both arguments present but a
malformed range sets the one-line `Bad range. Example: 1-1024` message
with status `bad-range`, invokes no collaborator, opens no modal (no
retry loop) — the dispatch is exactly that one `setMain`; by contrast,
on the modal path an invalid range surfaced at a step with the range
validator re-opens the same step (modal still open, same index, same
steps, no collaborator invoked). -/
theorem c7_bad_range :
    (∀ (e : Env) (banner debugInfo : String) (c : Collab) (g : AppG) (host range : String),
      g.modal = none → host ≠ "" → range ≠ "" → (parseRange range).length = 0 →
        dispatchCmd e banner debugInfo c g (.scan host range) false
          = setMainG g "Bad range. Example: 1-1024" "scan" "bad-range" ∧
        (dispatchCmd e banner debugInfo c g (.scan host range) false).calls = g.calls ∧
        (dispatchCmd e banner debugInfo c g (.scan host range) false).modal = none ∧
        (dispatchCmd e banner debugInfo c g (.scan host range) false).pan.status
          = "bad-range") ∧
    (∀ (e : Env) (c : Collab) (g : AppG) (mm : ModalM) (st : StepD) (raw : String),
      g.modal = some mm → mm.steps[mm.idx]? = some st → st.val = .rangeV →
      (parseRange (jsTrim raw)).length = 0 →
        (modalSubmit e c g raw).thrownMsg = none ∧
        (modalSubmit e c g raw).state.modal
          = some { mm with idx := mm.idx, prompt := st.prompt, value := st.initial } ∧
        (modalSubmit e c g raw).state.calls = g.calls ∧
        (modalSubmit e c g raw).state.pan.status = "input" ∧
        (modalSubmit e c g raw).state.pan.mainText = "⛔ Invalid range. Example: 1-1024") := by
  constructor
  · intro e banner debugInfo c g host range hmodal hhost hrange hports
    refine ⟨?_, ?_, ?_, ?_⟩ <;>
      simp [dispatchCmd, hmodal, hhost, hrange, hports, catchLine, setMainG]
  · intro e c g mm st raw hmodal hst hval hbad
    have hv : runValD st.val (jsTrim raw) = some "Invalid range. Example: 1-1024" := by
      rw [hval]
      simp [runValD, hbad]
    refine ⟨?_, ?_, ?_, ?_, ?_⟩ <;>
      simp [modalSubmit, hmodal, hst, hv, openStepG, setMainG,
        TryRes.thrownMsg, TryRes.state]

/-- Witness for C7 on the concrete line-path input `scan localhost
bogus` and on a concrete open scan modal at the range step. -/
theorem c7_bad_range_witness :
    dispatchCmd envA "B" "D" cOk gIdle (.scan "localhost" "bogus") false
      = setMainG gIdle "Bad range. Example: 1-1024" "scan" "bad-range" ∧
    (dispatchCmd envA "B" "D" cOk gIdle (.scan "localhost" "bogus") false).calls = [] ∧
    (dispatchCmd envA "B" "D" cOk gIdle (.scan "localhost" "bogus") false).modal = none ∧
    (modalSubmit envA cOk
      { gIdle with modal := some {
          kind := .scanTypedK
          steps := [ { prompt := "Host/IP to scan:", initial := "", val := .noneV }
                   , { prompt := "Port range (start-end), e.g., 1-1024:", initial := ""
                       val := .rangeV } ]
          idx := 1, answers := [some "localhost", none]
          prompt := "Port range (start-end), e.g., 1-1024:", value := "" } }
      "bogus").state.pan.status = "input" := by
  have h1 := c7_bad_range.1 envA "B" "D" cOk gIdle "localhost" "bogus"
    rfl (by decide) (by decide) (by decide)
  have h2 := c7_bad_range.2 envA cOk
    { gIdle with modal := some {
        kind := .scanTypedK
        steps := [ { prompt := "Host/IP to scan:", initial := "", val := .noneV }
                 , { prompt := "Port range (start-end), e.g., 1-1024:", initial := ""
                     val := .rangeV } ]
        idx := 1, answers := [some "localhost", none]
        prompt := "Port range (start-end), e.g., 1-1024:", value := "" } }
    { kind := .scanTypedK
      steps := [ { prompt := "Host/IP to scan:", initial := "", val := .noneV }
               , { prompt := "Port range (start-end), e.g., 1-1024:", initial := ""
                   val := .rangeV } ]
      idx := 1, answers := [some "localhost", none]
      prompt := "Port range (start-end), e.g., 1-1024:", value := "" }
    { prompt := "Port range (start-end), e.g., 1-1024:", initial := "", val := .rangeV }
    "bogus" rfl rfl rfl (by decide)
  exact ⟨h1.1, h1.2.1, h1.2.2.1, h2.2.2.2.1⟩

/-! ### LastArgs cache -/

theorem endInputFalseG_lastArgs (fuel : Nat) (g : AppG) :
    (endInputFalseG fuel g).lastArgs = g.lastArgs ∧
    (endInputFalseG fuel g).calls = g.calls := by
  induction fuel with
  | zero => exact ⟨rfl, rfl⟩
  | succ n ih => exact ⟨ih.1, ih.2⟩

/-- Counterexample for C9 as stated: a ping command typed **with** its
argument mutates `lastArgs.ping` even though no prompt was ever opened,
let alone completed (the modal is `none` before and after). -/
theorem c9_counterexample :
    gIdle.lastArgs.ping = "old" ∧ gIdle.modal = none ∧
    (dispatchCmd envA "B" "D" cOk gIdle (.ping "8.8.8.8") false).modal = none ∧
    (dispatchCmd envA "B" "D" cOk gIdle (.ping "8.8.8.8") false).lastArgs.ping
      = "8.8.8.8" := by decide

/-- C9 (amended): the `lastArgs` cache is mutated in exactly two
situations — on successful prompt completion (the completion closure
stores the validated answers) **and** whenever the corresponding command
is typed with its arguments present (for scan, after its range check
passes), in both cases before the collaborator resolves; it is never
cleared, every other operation (help, clear, opening a modal from the
typed path or the menu, a failing validation, cancellation) leaves it
unchanged, and it pre-fills exactly the menu-invoked modals (the
typed-path modals start from the empty string). -/
theorem c9_lastArgs_amended :
    (∀ (e : Env) (banner debugInfo : String) (c : Collab) (g : AppG) (host : String),
      g.modal = none → host ≠ "" →
        (dispatchCmd e banner debugInfo c g (.ping host) false).lastArgs.ping = host) ∧
    (∀ (e : Env) (banner debugInfo : String) (c : Collab) (g : AppG) (host : String),
      g.modal = none → host ≠ "" →
        (dispatchCmd e banner debugInfo c g (.dns host) false).lastArgs.dns = host) ∧
    (∀ (e : Env) (banner debugInfo : String) (c : Collab) (g : AppG) (target : String),
      g.modal = none → target ≠ "" →
        (dispatchCmd e banner debugInfo c g (.http target) false).lastArgs.http = target) ∧
    (∀ (e : Env) (banner debugInfo : String) (c : Collab) (g : AppG) (host : String),
      g.modal = none → host ≠ "" →
        (dispatchCmd e banner debugInfo c g (.trace host) false).lastArgs.trace = host) ∧
    (∀ (e : Env) (banner debugInfo : String) (c : Collab) (g : AppG) (host range : String),
      g.modal = none → host ≠ "" → range ≠ "" → (parseRange range).length ≠ 0 →
        (dispatchCmd e banner debugInfo c g (.scan host range) false).lastArgs.scan
          = { host := host, range := range }) ∧
    (∀ (e : Env) (banner debugInfo : String) (c : Collab) (g : AppG) (isDebug : Bool),
      (dispatchCmd e banner debugInfo c g .help isDebug).lastArgs = g.lastArgs ∧
      (dispatchCmd e banner debugInfo c g .clear isDebug).lastArgs = g.lastArgs ∧
      (dispatchCmd e banner debugInfo c g (.ping "") isDebug).lastArgs = g.lastArgs ∧
      (dispatchCmd e banner debugInfo c g (.scan "" "") isDebug).lastArgs = g.lastArgs) ∧
    (∀ (e : Env) (banner : String) (g : AppG) (selIdx : Nat),
      (runSelected e banner g selIdx).lastArgs = g.lastArgs) ∧
    (∀ (fuel : Nat) (g : AppG), (modalCancel fuel g).lastArgs = g.lastArgs) ∧
    (∀ (e : Env) (c : Collab) (g : AppG) (mm : ModalM) (st : StepD) (raw err : String),
      g.modal = some mm → mm.steps[mm.idx]? = some st →
      runValD st.val (jsTrim raw) = some err →
        (modalSubmit e c g raw).state.lastArgs = g.lastArgs) ∧
    (∀ (e : Env) (banner : String) (g : AppG),
      (runSelected e banner g 1).modal = some
        { kind := .pingK
          steps := [{ prompt := "Host/IP to ping:", initial := g.lastArgs.ping, val := .noneV }]
          idx := 0, answers := [none]
          prompt := "Host/IP to ping:", value := g.lastArgs.ping } ∧
      (runSelected e banner g 5).modal = some
        { kind := .scanMenuK
          steps := [ { prompt := "Host/IP to scan:", initial := g.lastArgs.scan.host
                       val := .noneV }
                   , { prompt := "Port range (start-end), e.g., 1-1024:"
                       initial := g.lastArgs.scan.range, val := .rangeV } ]
          idx := 0, answers := [none, none]
          prompt := "Host/IP to scan:", value := g.lastArgs.scan.host }) ∧
    (∀ (e : Env) (banner debugInfo : String) (c : Collab) (g : AppG),
      g.modal = none →
        ∀ mm, (dispatchCmd e banner debugInfo c g (.ping "") false).modal = some mm →
          mm.value = "" ∧
          mm.steps = [{ prompt := "Host/IP to ping:", initial := "", val := .noneV }]) ∧
    (∀ (e : Env) (c : Collab) (ans : List String) (g : AppG),
      (doneEffect e c .pingK ans g).state.lastArgs.ping = ans.getD 0 "") := by
  refine ⟨?_, ?_, ?_, ?_, ?_, ?_, ?_, ?_, ?_, ?_, ?_, ?_⟩
  · intro e banner debugInfo c g host hmodal hhost
    rcases hc : c.ping host with m | res <;>
      simp [dispatchCmd, hmodal, hhost, pingEffect, hc, catchLine, setMainG]
  · intro e banner debugInfo c g host hmodal hhost
    rcases hc : c.dnsLookup host with m | res <;>
      simp [dispatchCmd, hmodal, hhost, dnsEffect, hc, catchLine, setMainG]
  · intro e banner debugInfo c g target hmodal htarget
    rcases hc : c.httpCheck target with m | res <;>
      simp [dispatchCmd, hmodal, htarget, httpEffect, hc, catchLine, setMainG]
  · intro e banner debugInfo c g host hmodal hhost
    rcases hc : c.traceroute host with m | res <;>
      simp [dispatchCmd, hmodal, hhost, traceEffect, hc, catchLine, setMainG]
  · intro e banner debugInfo c g host range hmodal hhost hrange hports
    rcases hc : c.portScan host (parseRange range) with m | res <;>
      simp [dispatchCmd, hmodal, hhost, hrange, hports, scanEffect, hc, catchLine, setMainG]
  · intro e banner debugInfo c g isDebug
    by_cases hmodal : g.modal.isSome <;>
      refine ⟨?_, ?_, ?_, ?_⟩ <;>
        simp [dispatchCmd, hmodal, catchLine, setMainG, openSeqG]
  · intro e banner g selIdx
    unfold runSelected
    dsimp only
    split_ifs <;> simp [setMainG, openSeqG]
  · intro fuel g
    rw [modalCancel]
    split
    · exact (endInputFalseG_lastArgs fuel g).1
    · rfl
  · intro e c g mm st raw err hmodal hst herr
    simp [modalSubmit, hmodal, hst, herr, openStepG, setMainG, TryRes.state]
  · intro e banner g
    constructor <;> simp [runSelected, MENU, openSeqG]
  · intro e banner debugInfo c g hmodal mm hmm
    simp [dispatchCmd, hmodal, openSeqG, catchLine] at hmm
    subst hmm
    exact ⟨rfl, rfl⟩
  · intro e c ans g
    rcases hc : c.ping (ans.getD 0 "") with m | res <;>
      simp only [List.getD, List.get?_eq_getElem?] at hc <;>
      simp [doneEffect, pingEffect, hc, setMainG, TryRes.state, List.getD]

/-- Witness for C9 (amended): the typed path stores the argument, a menu
action on `home` leaves the cache unchanged, the menu ping modal is
pre-filled with the remembered `old`, and a completed ping prompt stores
its answer. -/
theorem c9_lastArgs_witness :
    (dispatchCmd envA "B" "D" cOk gIdle (.ping "8.8.8.8") false).lastArgs.ping = "8.8.8.8" ∧
    (runSelected envA "B" gIdle 0).lastArgs = gIdle.lastArgs ∧
    (runSelected envA "B" gIdle 1).modal = some
      { kind := .pingK
        steps := [{ prompt := "Host/IP to ping:", initial := "old", val := .noneV }]
        idx := 0, answers := [none]
        prompt := "Host/IP to ping:", value := "old" } ∧
    (doneEffect envA cOk .pingK ["h"] gIdle).state.lastArgs.ping = "h" := by
  refine ⟨c9_lastArgs_amended.1 envA "B" "D" cOk gIdle "8.8.8.8" rfl (by decide),
    c9_lastArgs_amended.2.2.2.2.2.2.1 envA "B" gIdle 0,
    ((c9_lastArgs_amended.2.2.2.2.2.2.2.2.2.1 envA "B" gIdle).1).trans (by decide),
    (c9_lastArgs_amended.2.2.2.2.2.2.2.2.2.2.2 envA cOk ["h"] gIdle).trans (by decide)⟩
